import Mathlib

/-!
Shallow embedding of the mqtt_dmx DMX lighting controller (Rust) in Lean 4.

The embedding follows the repository sources:
  * src/dmx.rs                        — channel/dimmer/target value model and parsers
  * src/defs.rs                       — declaration types (arrays, effects, universes)
  * src/artnet_manager/manager.rs     — `Universe` packet assembly, channel read/write,
                                        `ArtnetManager` and its tick loop
  * src/artnet_manager/runtime_nodes.rs — runtime effect nodes, Bresenham fade deltas
  * src/array_manager/lights.rs       — light-expression expansion with cycle bound
  * src/array_manager/verify.rs       — channel/role consistency verification
  * src/array_manager/values.rs       — symbol tables and variable expansion
  * src/array_manager/manager.rs, scope.rs, effects.rs — array manager and compilation

Modelling conventions:
  * Rust `String`/`&str` is embedded as `List Char` (`Str`); Rust byte values
    (`u8`, `u16`, `usize`) as `Nat`, with explicit range checks where the source
    has them. Arithmetic stays in `Nat`/`Int`; theorems establish the ranges in
    which the embedded arithmetic agrees with the machine arithmetic.
  * Rust `HashMap` is embedded as an association list. Iteration order of a
    `HashMap` is unspecified in Rust; the spec states the outer order is not
    observable, and no claim below depends on it.
  * Fallible Rust functions returning `Result` are embedded in `Except`.
    A Rust panic (integer division by zero, `unwrap` of `None`) is embedded as
    the distinguished `Fault.crash`, kept separate from returned `ArtnetError`s.
  * `ArtnetManager.set_channel` additionally records each write in a ghost
    trace field `set_channel_log`; the trace is write-only and lets theorems
    count `SetChannel` calls.  No other behaviour depends on it.
-/

namespace MqttDmx

/-- Embedded Rust string: a list of characters. -/
abbrev Str : Type := List Char

/-- The backquote character used by variable references. -/
def backquote : Char := Char.ofNat 96

/-- Rust `str::trim`: drop whitespace from both ends. -/
def trim (s : Str) : Str :=
  ((s.dropWhile Char.isWhitespace).reverse.dropWhile Char.isWhitespace).reverse

/-- Helper for `splitOnChar`, carrying the (reversed) current piece. -/
def splitOnCharAux (sep : Char) : Str → Str → List Str
  | [], acc => [acc.reverse]
  | c :: rest, acc =>
    if c = sep then acc.reverse :: splitOnCharAux sep rest [] else splitOnCharAux sep rest (c :: acc)

/-- Rust `str::split(sep)`: always yields at least one (possibly empty) piece. -/
def splitOnChar (sep : Char) (s : Str) : List Str := splitOnCharAux sep s []

/-- Break a string at the first occurrence of `sep` (Rust `str::find` + slicing):
`some (before, after)` when `sep` occurs, `none` otherwise. -/
def breakAtChar (sep : Char) : Str → Option (Str × Str)
  | [] => none
  | c :: rest =>
    if c = sep then some ([], rest)
    else (breakAtChar sep rest).map (fun p => (c :: p.1, p.2))

/-- Digits-only unsigned integer parse (Rust `str::parse::<uN>` on the inputs that
occur in this program: nonempty digit strings; range checked by the callers below). -/
def parseNatDigits (s : Str) : Option Nat :=
  if s = [] then none
  else if s.all Char.isDigit then
    some (s.foldl (fun acc c => acc * 10 + (c.toNat - 48)) 0)
  else none

/-- Rust `str::parse::<u16>`: digits with the u16 range check. -/
def parse_u16 (s : Str) : Option Nat :=
  match parseNatDigits s with
  | some n => if n ≤ 65535 then some n else none
  | none => none

/-- Rust `str::parse::<u8>`: digits with the u8 range check. -/
def parse_u8 (s : Str) : Option Nat :=
  match parseNatDigits s with
  | some n => if n ≤ 255 then some n else none
  | none => none

/-- Rust `str::parse::<usize>` (64-bit); the program never approaches the bound,
so no upper range check is modelled. -/
def parse_usize (s : Str) : Option Nat := parseNatDigits s

/-- src/dmx.rs `ChannelDefinition`: a single channel, an RGB triple or a
tri-white triple of DMX channel indices. -/
inductive ChannelDefinition : Type
  | single (c : Nat)
  | rgb (r g b : Nat)
  | triWhite (w1 w2 w3 : Nat)
  deriving DecidableEq

/-- src/dmx.rs `DimmerValue`: the byte value(s) carried by a channel. -/
inductive DimmerValue : Type
  | rgb (r g b : Nat)
  | triWhite (w1 w2 w3 : Nat)
  | single (v : Nat)
  deriving DecidableEq

/-- src/dmx.rs `ChannelValue`: a channel together with the value to write. -/
structure ChannelValue : Type where
  channel : ChannelDefinition
  value : DimmerValue
  deriving DecidableEq

/-- src/defs.rs `TargetValue`: optional per-family target bytes. -/
structure TargetValue : Type where
  single : Option Nat := none
  rgb : Option (Nat × Nat × Nat) := none
  tri_white : Option (Nat × Nat × Nat) := none
  deriving DecidableEq

/-- src/artnet_manager/error.rs `ArtnetError`.  Error payloads are carried as
the offending data; the source formats them into display strings, which no
claim inspects.  `ConnectionError` (socket I/O) is outside the embedded core. -/
inductive ArtnetError : Type
  | invalidUniverseNumber (n : Nat)
  | invalidUniverse (id : Str)
  | invalidSubnet (n : Nat)
  | invalidNet (n : Nat)
  | tooManyChannels (n : Nat)
  | invalidChannel (description : Str) (channel maxChannels : Nat)
  | invalidChannelAddress (s : Str)
  | invalidDimmerValue (s : Str)
  | ambiguousTargetValue (s : Str)
  | missingTargetValue (channel target : Str)
  deriving DecidableEq

/-- A fault of an embedded computation: either a Rust panic (`crash`, e.g. the
division by zero in `DmxChannelDelta::new` with `ticks == 0`) or a returned
`ArtnetError`.  The two are distinct: a panic unwinds, an error is a value. -/
inductive Fault : Type
  | crash
  | artnet (e : ArtnetError)
  deriving DecidableEq

/-- src/dmx.rs `impl FromStr for ChannelDefinition`:
`s:n` / `n` / `rgb:n` / `rgb:a/b/c` / `w:n` / `w:a/b/c`. -/
def ChannelDefinition.from_str (s : Str) : Except ArtnetError ChannelDefinition :=
  let (channel_type, channel) :=
    match breakAtChar ':' s with
    | some (before, after) => (trim before, trim after)
    | none => (['s'], trim s)
  match ((splitOnChar '/' channel).map trim).mapM parse_u16 with
  | none => .error (.invalidChannelAddress s)
  | some channels =>
    if channels = [] then .error (.invalidChannelAddress s)
    else
      -- `is_diff`: rgb/w explicit triples must use three distinct addresses
      let is_diff : Nat → Nat → Nat → Bool := fun c1 c2 c3 =>
        !(c1 = c2 || c1 = c3 || c2 = c3)
      match channel_type.map Char.toLower with
      | 'r' :: 'g' :: 'b' :: [] =>
        match channels with
        | [c] => .ok (.rgb c (c + 1) (c + 2))
        | [c1, c2, c3] =>
          if is_diff c1 c2 c3 then .ok (.rgb c1 c2 c3)
          else .error (.invalidChannelAddress s)
        | _ => .error (.invalidChannelAddress s)
      | 'w' :: [] =>
        match channels with
        | [c] => .ok (.triWhite c (c + 1) (c + 2))
        | [c1, c2, c3] =>
          if is_diff c1 c2 c3 then .ok (.triWhite c1 c2 c3)
          else .error (.invalidChannelAddress s)
        | _ => .error (.invalidChannelAddress s)
      | 's' :: [] =>
        match channels with
        | [c] => .ok (.single c)
        | _ => .error (.invalidChannelAddress s)
      | _ => .error (.invalidChannelAddress s)

/-- src/dmx.rs `impl FromStr for DimmerValue`:
`s(n)` / `rgb(r,g,b)` / `w(w1,w2,w3)`. -/
def DimmerValue.from_str (s : Str) : Except ArtnetError DimmerValue :=
  match breakAtChar '(' s with
  | none => .error (.invalidDimmerValue s)
  | some (before, afterOpen) =>
    match breakAtChar ')' afterOpen with
    | none => .error (.invalidDimmerValue s)
    | some (inside, _) =>
      let value_type := trim before
      match ((splitOnChar ',' inside).map trim).mapM parse_u8 with
      | none => .error (.invalidDimmerValue s)
      | some values =>
        match value_type.map Char.toLower, values with
        | 's' :: [], [v] => .ok (.single v)
        | 'r' :: 'g' :: 'b' :: [], [r, g, b] => .ok (.rgb r g b)
        | 'w' :: [], [w1, w2, w3] => .ok (.triWhite w1 w2 w3)
        | _, _ => .error (.invalidDimmerValue s)

/-- src/dmx.rs `impl FromStr for TargetValue`: semicolon-separated dimmer
values; a duplicated family is `AmbiguousTargetValue`. -/
def TargetValue.from_str (s : Str) : Except ArtnetError TargetValue :=
  match ((splitOnChar ';' s).map trim).mapM (fun v => (DimmerValue.from_str v).toOption) with
  | none =>
    -- re-run to surface the first parse error, as the source's collect does
    match ((splitOnChar ';' s).map trim).findSome? (fun v =>
        match DimmerValue.from_str v with
        | .error e => some e
        | .ok _ => none) with
    | some e => .error e
    | none => .error (.invalidDimmerValue s)
  | some values =>
    values.foldlM (fun (tv : TargetValue) v =>
      match v with
      | .single n =>
        match tv.single with
        | some _ => .error (.ambiguousTargetValue s)
        | none => .ok { tv with single := some n }
      | .rgb r g b =>
        match tv.rgb with
        | some _ => .error (.ambiguousTargetValue s)
        | none => .ok { tv with rgb := some (r, g, b) }
      | .triWhite w1 w2 w3 =>
        match tv.tri_white with
        | some _ => .error (.ambiguousTargetValue s)
        | none => .ok { tv with tri_white := some (w1, w2, w3) }) {}

/-- src/defs.rs `DimmingAmount` (usize) and its maximum (1000). -/
abbrev DimmingAmount : Type := Nat

/-- src/defs.rs `DIMMING_AMOUNT_MAX`. -/
def DIMMING_AMOUNT_MAX : DimmingAmount := 1000

/-- src/dmx.rs `TargetValue::get_dimmed_value`: scale every present family by
`dimming_amount / 1000` channel-wise with integer division; the Rust `as u8`
cast truncates modulo 256. -/
def TargetValue.get_dimmed_value (tv : TargetValue) (dimming_amount : DimmingAmount) : TargetValue :=
  { rgb := tv.rgb.map (fun p =>
      (p.1 * dimming_amount / 1000 % 256,
       p.2.1 * dimming_amount / 1000 % 256,
       p.2.2 * dimming_amount / 1000 % 256)),
    tri_white := tv.tri_white.map (fun p =>
      (p.1 * dimming_amount / 1000 % 256,
       p.2.1 * dimming_amount / 1000 % 256,
       p.2.2 * dimming_amount / 1000 % 256)),
    single := tv.single.map (fun v => v * dimming_amount / 1000 % 256) }

/-- src/dmx.rs `UniverseChannelDefinitions`: channels grouped per universe id. -/
structure UniverseChannelDefinitions : Type where
  universe_id : Str
  channels : List ChannelDefinition
  deriving DecidableEq

/-! ## Runtime effect nodes (src/artnet_manager/runtime_nodes.rs) -/

/-- src/artnet_manager/runtime_nodes.rs `DmxChannelDelta`: Bresenham state for
one 8-bit component of a fade. -/
structure DmxChannelDelta : Type where
  value : Nat
  is_increment : Bool
  delta : Nat
  dx : Nat
  dy : Nat
  fraction : Int
  deriving DecidableEq

/-- src/artnet_manager/runtime_nodes.rs `DmxChannelDelta::new`.  The source
divides by `ticks` unguarded; integer division by zero panics in Rust, so the
`ticks = 0` case is the `crash` fault. -/
def DmxChannelDelta.new (current_value target_value : Nat) (ticks : Nat) :
    Except Fault DmxChannelDelta :=
  if ticks = 0 then .error .crash
  else
    let is_increment : Bool := target_value > current_value
    let delta :=
      if is_increment then (target_value - current_value) / ticks
      else (current_value - target_value) / ticks
    let left_over :=
      if is_increment then (target_value - current_value) - delta * ticks
      else (current_value - target_value) - delta * ticks
    let dx := ticks * 2
    let dy := left_over * 2
    -- fraction = dy - (dx >> 1); dx = 2*ticks is nonnegative, so the shift is dx/2
    let fraction : Int := (dy : Int) - ((dx : Int) / 2)
    .ok { value := current_value, is_increment, delta, dx, dy, fraction }

/-- src/artnet_manager/runtime_nodes.rs `DmxChannelDelta::tick`: advance the
value by the base step, plus one distributed unit when the error term is due.
The theorems below establish that `value` stays within the `u8` range reached
by the source, so `Nat` arithmetic agrees with the `u8` arithmetic. -/
def DmxChannelDelta.tick (d : DmxChannelDelta) : DmxChannelDelta :=
  let d1 :=
    if d.is_increment then
      if d.fraction ≥ 0 then
        { d with value := d.value + d.delta + 1, fraction := d.fraction - (d.dx : Int) }
      else
        { d with value := d.value + d.delta }
    else
      if d.fraction ≥ 0 then
        { d with value := d.value - d.delta - 1, fraction := d.fraction - (d.dx : Int) }
      else
        { d with value := d.value - d.delta }
  { d1 with fraction := d1.fraction + (d.dy : Int) }

/-- src/artnet_manager/runtime_nodes.rs `DmxChannelDelta::is_fade_needed`. -/
def DmxChannelDelta.is_fade_needed (d : DmxChannelDelta) : Bool :=
  decide (0 < d.delta) || decide (0 < d.dy)

/-- src/artnet_manager/runtime_nodes.rs `FadeEffectDimmerState`: per-channel
fade state, one `DmxChannelDelta` per component. -/
inductive FadeEffectDimmerState : Type
  | single (v : DmxChannelDelta)
  | rgb (r g b : DmxChannelDelta)
  | triWhite (w1 w2 w3 : DmxChannelDelta)
  deriving DecidableEq

/-- src/artnet_manager/runtime_nodes.rs `FadeEffectDimmerState::tick`. -/
def FadeEffectDimmerState.tick : FadeEffectDimmerState → FadeEffectDimmerState
  | .single v => .single v.tick
  | .rgb r g b => .rgb r.tick g.tick b.tick
  | .triWhite w1 w2 w3 => .triWhite w1.tick w2.tick w3.tick

/-- src/artnet_manager/runtime_nodes.rs `FadeEffectDimmerState::is_fade_needed`. -/
def FadeEffectDimmerState.is_fade_needed : FadeEffectDimmerState → Bool
  | .single v => v.is_fade_needed
  | .rgb r g b => r.is_fade_needed || g.is_fade_needed || b.is_fade_needed
  | .triWhite w1 w2 w3 => w1.is_fade_needed || w2.is_fade_needed || w3.is_fade_needed

/-- src/artnet_manager/runtime_nodes.rs `FadeEffectChannelState`. -/
structure FadeEffectChannelState : Type where
  channel : ChannelDefinition
  value : FadeEffectDimmerState
  deriving DecidableEq

/-- src/artnet_manager/runtime_nodes.rs `FadeEffectChannelState::get_channel_value`. -/
def FadeEffectChannelState.get_channel_value (cs : FadeEffectChannelState) : ChannelValue :=
  match cs.value with
  | .single v => { channel := cs.channel, value := .single v.value }
  | .rgb r g b => { channel := cs.channel, value := .rgb r.value g.value b.value }
  | .triWhite w1 w2 w3 => { channel := cs.channel, value := .triWhite w1.value w2.value w3.value }

/-- src/artnet_manager/runtime_nodes.rs `FadeEffectChannelState::is_fade_needed`. -/
def FadeEffectChannelState.is_fade_needed (cs : FadeEffectChannelState) : Bool :=
  cs.value.is_fade_needed

/-- src/artnet_manager/runtime_nodes.rs `FadeEffectUniverseState`. -/
structure FadeEffectUniverseState : Type where
  universe_id : Str
  channel_states : List FadeEffectChannelState
  deriving DecidableEq

/-- src/artnet_manager/runtime_nodes.rs `FadeEffectUniverseState::fade_needed`. -/
def FadeEffectUniverseState.fade_needed (us : FadeEffectUniverseState) : Bool :=
  us.channel_states.any FadeEffectChannelState.is_fade_needed

/-- src/artnet_manager/runtime_nodes.rs `FadeEffectState`. -/
structure FadeEffectState : Type where
  universe_states : List FadeEffectUniverseState
  deriving DecidableEq

/-- src/artnet_manager/runtime_nodes.rs `FadeEffectState::fade_needed`. -/
def FadeEffectState.fade_needed (st : FadeEffectState) : Bool :=
  st.universe_states.any FadeEffectUniverseState.fade_needed

/-- src/artnet_manager/runtime_nodes.rs `FadeEffectNode`. -/
structure FadeEffectNode : Type where
  lights : List UniverseChannelDefinitions
  ticks : Nat
  current_tick : Nat
  target : TargetValue
  state : Option FadeEffectState
  deriving DecidableEq

/-- The runtime effect tree (src/artnet_manager/manager.rs trait
`EffectNodeRuntime` with its src/artnet_manager/runtime_nodes.rs
implementations `SequenceEffectNode`, `ParallelEffectNode`, `DelayEffectNode`
and `FadeEffectNode`), embedded as a closed sum. -/
inductive EffectNode : Type
  | sequence (nodes : List EffectNode) (current_node : Nat)
  | parallel (nodes : List EffectNode)
  | delay (ticks current_tick : Nat)
  | fade (node : FadeEffectNode)

/-! ## Universes and the Art-Net manager (src/artnet_manager/manager.rs) -/

/-- src/defs.rs `UniverseDefinition`.  The controller IP address and the two
test-only flags are outside the embedded core (socket I/O). -/
structure UniverseDefinition : Type where
  description : Str
  net : Nat
  subnet : Nat
  «universe» : Nat
  channels : Nat
  deriving DecidableEq

/-- src/artnet_manager/manager.rs `DMX_DATA_OFFSET`. -/
def DMX_DATA_OFFSET : Nat := 18

/-- src/artnet_manager/manager.rs `ARTNET_OPCODE_OUTPUT`. -/
def ARTNET_OPCODE_OUTPUT : Nat := 0x5000

/-- src/artnet_manager/manager.rs `Universe`: the formatted description and the
full Art-Net packet buffer (18-byte header followed by the DMX data region).
The shared controller socket is outside the embedded core. -/
structure Universe : Type where
  description : Str
  packet_bytes : List Nat
  deriving DecidableEq

/-- src/artnet_manager/manager.rs `Universe::new`: validate the definition
bounds, then assemble the packet header and a zeroed even-length data region.
`(channels + 1) & !1` clears the low bit of `channels + 1`, i.e. rounds
`channels` up to an even count; it is embedded as `2 * ((channels + 1) / 2)`. -/
def Universe.new (universe_id : Str) (definition : UniverseDefinition) :
    Except ArtnetError Universe :=
  if definition.«universe» > 15 then .error (.invalidUniverseNumber definition.«universe»)
  else if definition.subnet > 15 then .error (.invalidSubnet definition.subnet)
  else if definition.net > 127 then .error (.invalidNet definition.net)
  else if definition.channels > 512 then .error (.tooManyChannels definition.channels)
  else
    let channel_count := 2 * ((definition.channels + 1) / 2)
    let packet_bytes : List Nat :=
      -- "Art-Net\0"
      [0x41, 0x72, 0x74, 0x2d, 0x4e, 0x65, 0x74, 0x00]
      -- opcode 0x5000, little-endian: low byte then high byte
      ++ [ARTNET_OPCODE_OUTPUT % 256, ARTNET_OPCODE_OUTPUT / 256]
      -- protocol version hi / lo
      ++ [0x00, 0x14]
      -- sequence, physical
      ++ [0x00, 0x00]
      -- (subnet << 4) | universe, then net
      ++ [definition.subnet <<< 4 ||| definition.«universe», definition.net]
      -- data length, big-endian: high byte then low byte
      ++ [channel_count / 256, channel_count % 256]
      ++ List.replicate channel_count 0
    .ok { description := universe_id ++ (" (".toList ++ definition.description ++ ")".toList),
          packet_bytes }

/-- Component channel indices of a channel definition, in write order.  In the
source (struct form) these are `channel`, `channel+1`, `channel+2`; the enum
form of src/dmx.rs carries the three indices explicitly. -/
def ChannelDefinition.componentIndices : ChannelDefinition → List Nat
  | .single c => [c]
  | .rgb r g b => [r, g, b]
  | .triWhite w1 w2 w3 => [w1, w2, w3]

/-- The base channel index, used in `InvalidChannel` error payloads
(source field `v.channel`). -/
def ChannelDefinition.channelNumber : ChannelDefinition → Nat
  | .single c => c
  | .rgb r _ _ => r
  | .triWhite w1 _ _ => w1

/-- Component bytes of a dimmer value, in write order. -/
def DimmerValue.componentValues : DimmerValue → List Nat
  | .rgb r g b => [r, g, b]
  | .triWhite w1 w2 w3 => [w1, w2, w3]
  | .single v => [v]

/-- src/artnet_manager/manager.rs `Universe::get_channel_count`. -/
def Universe.get_channel_count (u : Universe) : Nat :=
  u.packet_bytes.length - DMX_DATA_OFFSET

/-- src/artnet_manager/manager.rs `Universe::set_channel`: validate that every
written byte lands inside the buffer, then write the component bytes into the
DMX data region.  (The source checks `DMX_DATA_OFFSET + channel + value_bytes
> len` on the base channel of a consecutive triple; per-component bounds are
the same check for consecutive components.) -/
def Universe.set_channel (u : Universe) (v : ChannelValue) : Except ArtnetError Universe :=
  if (v.channel.componentIndices.all
        (fun i => DMX_DATA_OFFSET + i + 1 ≤ u.packet_bytes.length)) then
    let written := (List.zip v.channel.componentIndices v.value.componentValues).foldl
      (fun bytes p => bytes.set (DMX_DATA_OFFSET + p.1) p.2) u.packet_bytes
    .ok { u with packet_bytes := written }
  else
    .error (.invalidChannel u.description v.channel.channelNumber u.get_channel_count)

/-- src/artnet_manager/manager.rs `Universe::get_channel`: validate bounds,
then read the component bytes back in the shape of the requested definition. -/
def Universe.get_channel (u : Universe) (channel_definition : ChannelDefinition) :
    Except ArtnetError ChannelValue :=
  if (channel_definition.componentIndices.all
        (fun i => DMX_DATA_OFFSET + i + 1 ≤ u.packet_bytes.length)) then
    let byte : Nat → Nat := fun i => u.packet_bytes.getD (DMX_DATA_OFFSET + i) 0
    .ok { channel := channel_definition,
          value :=
            match channel_definition with
            | .rgb r g b => .rgb (byte r) (byte g) (byte b)
            | .triWhite w1 w2 w3 => .triWhite (byte w1) (byte w2) (byte w3)
            | .single c => .single (byte c) }
  else
    .error (.invalidChannel u.description channel_definition.channelNumber u.get_channel_count)

/-- Association-list lookup (Rust `HashMap::get`), first binding wins. -/
def lookupA {κ α : Type} [DecidableEq κ] : List (κ × α) → κ → Option α
  | [], _ => none
  | (k, v) :: rest, key => if k = key then some v else lookupA rest key

/-- Association-list update of an existing key (Rust mutating a map entry). -/
def updateA {κ α : Type} [DecidableEq κ] : List (κ × α) → κ → α → List (κ × α)
  | [], _, _ => []
  | (k, v) :: rest, key, value =>
    if k = key then (k, value) :: rest else (k, v) :: updateA rest key value

/-- Association-list insert-or-replace (Rust `HashMap::insert`). -/
def insertA {κ α : Type} [DecidableEq κ] (l : List (κ × α)) (key : κ) (value : α) :
    List (κ × α) :=
  match lookupA l key with
  | some _ => updateA l key value
  | none => l ++ [(key, value)]

/-- src/artnet_manager/manager.rs `ArtnetManager`: universes and active
effects, keyed by id.  Controller sockets are outside the embedded core.
`set_channel_log` is a ghost trace of `set_channel` calls used only by the
theorems to count writes; no embedded code reads it. -/
structure ArtnetManager : Type where
  universes : List (Str × Universe)
  active_effects : List (Str × EffectNode)
  set_channel_log : List (Str × ChannelValue)

/-- src/artnet_manager/manager.rs `ArtnetManager::set_channel`: delegate to the
universe, erroring when the universe id is unknown. -/
def ArtnetManager.set_channel (m : ArtnetManager) (universe_id : Str) (v : ChannelValue) :
    Except ArtnetError ArtnetManager :=
  match lookupA m.universes universe_id with
  | some u =>
    match u.set_channel v with
    | .ok u' => .ok { m with universes := updateA m.universes universe_id u',
                             set_channel_log := m.set_channel_log ++ [(universe_id, v)] }
    | .error e => .error e
  | none => .error (.invalidUniverse universe_id)

/-- src/artnet_manager/manager.rs `ArtnetManager::get_channel`. -/
def ArtnetManager.get_channel (m : ArtnetManager) (universe_id : Str)
    (channel_definition : ChannelDefinition) : Except ArtnetError ChannelValue :=
  match lookupA m.universes universe_id with
  | some u => u.get_channel channel_definition
  | none => .error (.invalidUniverse universe_id)

/-- src/artnet_manager/runtime_nodes.rs `FadeEffectNode::initialize_channel_state`:
read the channel back, then build one `DmxChannelDelta` per component, or skip
the channel (`None`) when the target has no value for its family. -/
def FadeEffectNode.initialize_channel_state (node : FadeEffectNode) (m : ArtnetManager)
    (universe_id : Str) (channel_definition : ChannelDefinition) :
    Except Fault (Option FadeEffectChannelState) :=
  match m.get_channel universe_id channel_definition with
  | .error e => .error (.artnet e)
  | .ok cv =>
    match cv.value with
    | .rgb current_r current_g current_b =>
      match node.target.rgb with
      | none => .ok none
      | some t => do
        let dr ← DmxChannelDelta.new current_r t.1 node.ticks
        let dg ← DmxChannelDelta.new current_g t.2.1 node.ticks
        let db ← DmxChannelDelta.new current_b t.2.2 node.ticks
        .ok (some { channel := channel_definition, value := .rgb dr dg db })
    | .triWhite current_w1 current_w2 current_w3 =>
      match node.target.tri_white with
      | none => .ok none
      | some t => do
        let d1 ← DmxChannelDelta.new current_w1 t.1 node.ticks
        let d2 ← DmxChannelDelta.new current_w2 t.2.1 node.ticks
        let d3 ← DmxChannelDelta.new current_w3 t.2.2 node.ticks
        .ok (some { channel := channel_definition, value := .triWhite d1 d2 d3 })
    | .single current =>
      match node.target.single with
      | none => .ok none
      | some t => do
        let d ← DmxChannelDelta.new current t node.ticks
        .ok (some { channel := channel_definition, value := .single d })

/-- src/artnet_manager/runtime_nodes.rs `FadeEffectNode::initialize_universe_state`:
collect the channel states of one universe, skipping `None` entries. -/
def FadeEffectNode.initialize_universe_state (node : FadeEffectNode) (m : ArtnetManager)
    («universe» : UniverseChannelDefinitions) : Except Fault (List FadeEffectChannelState) :=
  «universe».channels.foldlM
    (fun (acc : List FadeEffectChannelState) channel => do
      match ← node.initialize_channel_state m «universe».universe_id channel with
      | some channel_state => pure (acc ++ [channel_state])
      | none => pure acc)
    []

/-- src/artnet_manager/runtime_nodes.rs `FadeEffectNode::initialize_state`. -/
def FadeEffectNode.initialize_state (node : FadeEffectNode) (m : ArtnetManager) :
    Except Fault FadeEffectState := do
  let universe_states ← node.lights.foldlM
    (fun (acc : List FadeEffectUniverseState) «universe» => do
      let channel_states ← node.initialize_universe_state m «universe»
      pure (acc ++ [{ universe_id := «universe».universe_id, channel_states }]))
    []
  pure { universe_states }

/-- The inner loop of src/artnet_manager/runtime_nodes.rs `FadeEffectNode::tick`
over one universe's channel states: advance every delta, then write the
updated value with `set_channel`. -/
def FadeEffectNode.tick_channel_states (universe_id : Str) :
    List FadeEffectChannelState → ArtnetManager →
    Except Fault (List FadeEffectChannelState × ArtnetManager)
  | [], m => .ok ([], m)
  | channel_state :: rest, m =>
    let channel_state' := { channel_state with value := channel_state.value.tick }
    match m.set_channel universe_id channel_state'.get_channel_value with
    | .error e => .error (.artnet e)
    | .ok m' =>
      match FadeEffectNode.tick_channel_states universe_id rest m' with
      | .error e => .error e
      | .ok (rest', m'') => .ok (channel_state' :: rest', m'')

/-- The outer loop of src/artnet_manager/runtime_nodes.rs `FadeEffectNode::tick`
over the universe states. -/
def FadeEffectNode.tick_universe_states :
    List FadeEffectUniverseState → ArtnetManager →
    Except Fault (List FadeEffectUniverseState × ArtnetManager)
  | [], m => .ok ([], m)
  | us :: rest, m =>
    match FadeEffectNode.tick_channel_states us.universe_id us.channel_states m with
    | .error e => .error e
    | .ok (channel_states', m') =>
      match FadeEffectNode.tick_universe_states rest m' with
      | .error e => .error e
      | .ok (rest', m'') => .ok ({ us with channel_states := channel_states' } :: rest', m'')

/-- The second half of src/artnet_manager/runtime_nodes.rs
`FadeEffectNode::tick`: while `current_tick < ticks`, advance and write every
channel state, then increment `current_tick`.  The source unwraps
`self.state`; a missing state at this point would panic (`crash`). -/
def FadeEffectNode.run_phase (node : FadeEffectNode) (m : ArtnetManager) :
    Except Fault (FadeEffectNode × ArtnetManager) :=
  if node.current_tick < node.ticks then
    match node.state with
    | none => .error .crash
    | some st =>
      match FadeEffectNode.tick_universe_states st.universe_states m with
      | .error e => .error e
      | .ok (universe_states', m') =>
        .ok ({ node with state := some { universe_states := universe_states' },
                         current_tick := node.current_tick + 1 }, m')
  else .ok (node, m)

/-- src/artnet_manager/runtime_nodes.rs `FadeEffectNode::tick`: on the first
tick, initialize the state from the current universe contents; when no fade is
needed, jump `current_tick` to `ticks` (done, nothing transmitted). -/
def FadeEffectNode.tick (node : FadeEffectNode) (m : ArtnetManager) :
    Except Fault (FadeEffectNode × ArtnetManager) :=
  match node.state with
  | some _ => node.run_phase m
  | none =>
    match node.initialize_state m with
    | .error e => .error e
    | .ok st =>
      if FadeEffectState.fade_needed st then
        FadeEffectNode.run_phase { node with state := some st } m
      else
        FadeEffectNode.run_phase { node with current_tick := node.ticks } m

/-- src/artnet_manager/runtime_nodes.rs `FadeEffectNode::is_done`. -/
def FadeEffectNode.is_done (node : FadeEffectNode) : Bool :=
  decide (node.current_tick ≥ node.ticks)

mutual

/-- The `is_done` methods of the four runtime nodes
(src/artnet_manager/runtime_nodes.rs). -/
def EffectNode.is_done : EffectNode → Bool
  | .sequence nodes current_node => decide (current_node ≥ nodes.length)
  | .parallel nodes => EffectNode.all_done nodes
  | .delay ticks current_tick => decide (current_tick ≥ ticks)
  | .fade node => node.is_done

/-- `nodes.iter().all(|node| node.is_done())` of `ParallelEffectNode::is_done`. -/
def EffectNode.all_done : List EffectNode → Bool
  | [] => true
  | n :: rest => n.is_done && EffectNode.all_done rest

end

mutual

/-- The `tick` methods of the four runtime nodes
(src/artnet_manager/runtime_nodes.rs).  `Sequence` ticks its current child and
advances past it when the child reports done; `Parallel` ticks every child;
`Delay` counts a tick while not yet elapsed. -/
def EffectNode.tick : EffectNode → ArtnetManager → Except Fault (EffectNode × ArtnetManager)
  | .sequence nodes current_node, m =>
    if current_node < nodes.length then
      match EffectNode.tick_at nodes current_node m with
      | .error e => .error e
      | .ok (nodes', child_done, m') =>
        .ok (.sequence nodes' (if child_done = some true then current_node + 1 else current_node),
             m')
    else .ok (.sequence nodes current_node, m)
  | .parallel nodes, m =>
    match EffectNode.tick_all nodes m with
    | .error e => .error e
    | .ok (nodes', m') => .ok (.parallel nodes', m')
  | .delay ticks current_tick, m =>
    .ok (.delay ticks (if current_tick < ticks then current_tick + 1 else current_tick), m)
  | .fade node, m =>
    match node.tick m with
    | .error e => .error e
    | .ok (node', m') => .ok (.fade node', m')

/-- Tick the child at the given index (`self.nodes[self.current_node].tick`),
reporting that child's `is_done` after the tick. -/
def EffectNode.tick_at : List EffectNode → Nat → ArtnetManager →
    Except Fault (List EffectNode × Option Bool × ArtnetManager)
  | [], _, m => .ok ([], none, m)
  | n :: rest, 0, m =>
    match n.tick m with
    | .error e => .error e
    | .ok (n', m') => .ok (n' :: rest, some n'.is_done, m')
  | n :: rest, i + 1, m =>
    match EffectNode.tick_at rest i m with
    | .error e => .error e
    | .ok (rest', d, m') => .ok (n :: rest', d, m')

/-- Tick every child in order (`ParallelEffectNode::tick`). -/
def EffectNode.tick_all : List EffectNode → ArtnetManager →
    Except Fault (List EffectNode × ArtnetManager)
  | [], m => .ok ([], m)
  | n :: rest, m =>
    match n.tick m with
    | .error e => .error e
    | .ok (n', m') =>
      match EffectNode.tick_all rest m' with
      | .error e => .error e
      | .ok (rest', m'') => .ok (n' :: rest', m'')

end

/-- The loop of src/artnet_manager/manager.rs `ArtnetManager::tick` over the
taken map: advance every active effect, threading the manager; on the first
error, stop (the remaining and already-ticked effects of the taken map are
dropped). -/
def ArtnetManager.tick_active : List (Str × EffectNode) → ArtnetManager →
    Except Fault (List (Str × EffectNode)) × ArtnetManager
  | [], m => (.ok [], m)
  | (id, effect) :: rest, m =>
    match effect.tick m with
    | .error e => (.error e, m)
    | .ok (effect', m') =>
      match ArtnetManager.tick_active rest m' with
      | (.ok rest', m'') => (.ok ((id, effect') :: rest'), m'')
      | (.error e, m'') => (.error e, m'')

/-- src/artnet_manager/manager.rs `ArtnetManager::tick`: `mem::take` the
active-effects map (leaving the manager's map empty), tick every effect, and
on success move the map back.  On an error the early `?` return leaves the
manager's active-effects map empty.  No completed effect is removed. -/
def ArtnetManager.tick (m : ArtnetManager) : Except Fault Unit × ArtnetManager :=
  let active_effects := m.active_effects
  let m1 := { m with active_effects := [] }
  match ArtnetManager.tick_active active_effects m1 with
  | (.ok ticked, m2) => (.ok (), { m2 with active_effects := ticked })
  | (.error e, m2) => (.error e, m2)

/-! ## Array manager data model (src/defs.rs, src/array_manager/) -/

/-- src/array_manager/verify.rs `ChannelUsage`: the role a DMX channel plays. -/
inductive ChannelUsage : Type
  | S | R | G | B | W1 | W2 | W3
  deriving DecidableEq

/-- src/array_manager/error.rs `DmxArrayError`.  The source renders the
expansion stack into the message with `stack.to_string()`; the embedding
carries the stack itself (`List Str`), with `render_stack` below as the
`Display` rendering, so theorems can speak about the carried stack. -/
inductive DmxArrayError : Type
  | arrayNotFound (array_id : Str)
  | arrayLightsNotFound (array_id : Str) (stack : List Str) (nested_lighted_id : Str)
  | arrayLightsCircularReference (array_id : Str) (stack : List Str)
      (nested_lights_list entry : Str)
  | arrayLightsInvalidChannelDefinition (array_id : Str) (stack : List Str) (entry : Str)
  | effectNotFound (array_description effect_id : Str)
  | effectValueNotFound (value_name effect_id array_id : Str)
  | arrayPresetNotFound (array_id : Str) (preset_number : Nat)
  | arrayPresetValueNotFound (array_id : Str) (preset_number : Nat) (preset value_name : Str)
  | arrayValueNotFound (array_id unexpanded_value value_name : Str)
  | valueExpressionNotTerminated (array_id unexpanded_value : Str)
  | arrayNoDefaultEffects (array_id : Str)
  | arrayNoAllLightsGroup (array_id : Str)
  | arrayPresetEffectNotFound (array_id : Str) (preset_number : Nat) (kind effect_name : Str)
  | arrayPresetDefaultEffectNotFound (array_id : Str) (preset_number : Nat) (kind : Str)
  | arrayLightChannelUsageMismatch (array_id universe_id : Str) (channel : Nat)
      (existing_usage usage : ChannelUsage) (group_name : Str)
  | arrayLightChannelNotInAllGroup (array_id universe_id : Str) (channel : Nat)
      (usage : ChannelUsage) (group_name : Str)
  | valueError (scope description message : Str)
  deriving DecidableEq

/-- src/array_manager/lights.rs `impl Display for ExpansionStack`: the entries
joined by " -> ". -/
def render_stack (stack : List Str) : Str :=
  match stack with
  | [] => []
  | first :: rest => first ++ rest.foldl (fun acc s => acc ++ " -> ".toList ++ s) []

/-- src/defs.rs `NumberOrVariable`: a literal count or a string with variable
references. -/
inductive NumberOrVariable : Type
  | number (n : Nat)
  | «variable» (s : Str)
  deriving DecidableEq

/-- src/defs.rs `EffectNodeDefinition` with its four payload structs
(`SequenceEffectNodeDefinition`, `ParallelEffectNodeDefinition`,
`DelayEffectNodeDefinition`, `FadeEffectNodeDefinition`) flattened into the
constructors. -/
inductive EffectNodeDefinition : Type
  | sequence (nodes : List EffectNodeDefinition)
  | parallel (nodes : List EffectNodeDefinition)
  | delay (ticks : NumberOrVariable)
  | fade (lights : Str) (ticks : NumberOrVariable) (target : Str) (no_dimming : Bool)

/-- src/defs.rs `SymbolTable` (a `HashMap<String, String>` of values). -/
abbrev SymbolTable : Type := List (Str × Str)

/-- src/defs.rs `DmxArrayPreset`. -/
structure DmxArrayPreset : Type where
  values : SymbolTable
  «on» : Option Str
  off : Option Str
  dim : Option Str

/-- src/defs.rs `DmxArray`.  The `on`/`off`/`dim` fields default to the
literals "on"/"off"/"dim" during deserialization. -/
structure DmxArray : Type where
  description : Str
  universe_id : Str
  lights : List (Str × Str)
  «on» : Str := "on".toList
  off : Str := "off".toList
  dim : Str := "dim".toList
  effects : List (Str × EffectNodeDefinition) := []
  values : SymbolTable := []
  presets : List DmxArrayPreset := []

/-- src/array_manager/manager.rs `ArrayManager`: arrays, global effects, the
global and per-array symbol tables, and the three built-in default effects. -/
structure ArrayManager : Type where
  arrays : List (Str × DmxArray)
  effects : List (Str × EffectNodeDefinition)
  global_values : SymbolTable
  values : List (Str × SymbolTable)
  default_on_effect : EffectNodeDefinition
  default_off_effect : EffectNodeDefinition
  default_dim_effect : EffectNodeDefinition

/-- src/array_manager/manager.rs `ArrayManager::new`: the three built-in
default effects, deserialized in the source from JSON literals. -/
def ArrayManager.new : ArrayManager :=
  { arrays := [], effects := [], global_values := [], values := [],
    default_on_effect := .fade "@all".toList
      (.«variable» "`on_ticks=10`".toList)
      "`target=s(255);rgb(255,255,255);w(255,255,255)`".toList false,
    default_off_effect := .fade "@all".toList
      (.«variable» "`off_ticks=10`".toList)
      "`target=s(0);rgb(0,0,0);w(0,0,0)`".toList false,
    default_dim_effect := .fade "@all".toList
      (.«variable» "`dim_ticks=10`".toList)
      "`target=s(255);rgb(255,255,255);w(255,255,255)`".toList false }

/-- src/array_manager/manager.rs `ArrayManager::get_array`. -/
def ArrayManager.get_array (mgr : ArrayManager) (array_id : Str) :
    Except DmxArrayError DmxArray :=
  match lookupA mgr.arrays array_id with
  | none => .error (.arrayNotFound array_id)
  | some array => .ok array

/-! ## Light-expression expansion (src/array_manager/lights.rs) -/

/-- The accumulated expansion result.  The source accumulates into a
`HashMap<String, UniverseChannelDefinitions>` and finally returns
`into_values()`; the embedding keeps the buckets in first-insertion order
(the spec notes the outer order is not observable). -/
abbrev LightsResult : Type := List UniverseChannelDefinitions

/-- `result.entry(universe_id).or_insert_with(..)` followed by
`universe_channels.add(channel)`: append the channel to the universe's bucket,
creating the bucket if needed. -/
def addResultChannel : LightsResult → Str → ChannelDefinition → LightsResult
  | [], universe_id, channel => [{ universe_id, channels := [channel] }]
  | ucd :: rest, universe_id, channel =>
    if ucd.universe_id = universe_id then
      { ucd with channels := ucd.channels ++ [channel] } :: rest
    else ucd :: addResultChannel rest universe_id channel

/-- `lights_list.split(',').map(|s| s.trim())`: the entries of one expression. -/
def split_entries (lights_list : Str) : List Str :=
  (splitOnChar ',' lights_list).map trim

/-- Rust `str::strip_prefix` with a one-character prefix. -/
def stripPrefixChar (c : Char) : Str → Option Str
  | [] => none
  | c' :: rest => if c' = c then some rest else none

/-- src/array_manager/lights.rs `ArrayManager::static_do_get_array_light_channels`,
as the loop over the already-split entries.  The local `universe_id` starts at
`array.universe_id` on every invocation (so a nested `@group` expansion starts
from the array default, not from the caller's current universe) and is threaded
through the loop as the `universe_id` argument here.  The expansion stack is
pushed before the depth check; a stack deeper than 5 is the circular-reference
error. -/
def static_do_entries (array_id : Str) (array : DmxArray) :
    List Str → Str → LightsResult → List Str → Except DmxArrayError LightsResult
  | [], _, result, _ => .ok result
  | entry :: rest, universe_id, result, stack =>
    match stripPrefixChar '@' entry with
    | some nested_lighted_id =>
      match lookupA array.lights nested_lighted_id with
      | none => .error (.arrayLightsNotFound array_id stack nested_lighted_id)
      | some nested_lights_list =>
        if h : (stack ++ [nested_lights_list]).length > 5 then
          .error (.arrayLightsCircularReference array_id (stack ++ [nested_lights_list])
            nested_lights_list entry)
        else
          match static_do_entries array_id array (split_entries nested_lights_list)
              array.universe_id result (stack ++ [nested_lights_list]) with
          | .error e => .error e
          | .ok result' => static_do_entries array_id array rest universe_id result' stack
    | none =>
      match stripPrefixChar '$' entry with
      | some uid => static_do_entries array_id array rest uid result stack
      | none =>
        match ChannelDefinition.from_str entry with
        | .error _ => .error (.arrayLightsInvalidChannelDefinition array_id stack entry)
        | .ok channel =>
          static_do_entries array_id array rest universe_id
            (addResultChannel result universe_id channel) stack
  termination_by entries _ _ stack => (6 - stack.length, entries.length)
  decreasing_by
    · apply Prod.Lex.left
      simp only [List.length_append, List.length_cons, List.length_nil] at h ⊢
      omega
    · apply Prod.Lex.right'
      · omega
      · simp
    · apply Prod.Lex.right'
      · omega
      · simp
    · apply Prod.Lex.right'
      · omega
      · simp

/-- src/array_manager/lights.rs `static_do_get_array_light_channels` on an
unsplit expression: split the entries and start at the array's default
universe (the `let mut universe_id = array.universe_id` at the head of the
source function). -/
def static_do_get_array_light_channels (array_id : Str) (array : DmxArray)
    (lights_list : Str) (result : LightsResult) (stack : List Str) :
    Except DmxArrayError LightsResult :=
  static_do_entries array_id array (split_entries lights_list) array.universe_id result stack

/-- src/array_manager/lights.rs `static_get_array_light_channels`: push the
top-level expression onto a fresh stack, expand, and return the buckets. -/
def static_get_array_light_channels (array_id : Str) (array : DmxArray)
    (lights_list : Str) : Except DmxArrayError LightsResult :=
  static_do_get_array_light_channels array_id array lights_list [] [lights_list]

/-- src/array_manager/lights.rs `ArrayManager::get_array_light_channels`. -/
def ArrayManager.get_array_light_channels (mgr : ArrayManager) (array_id : Str)
    (lights_list : Str) : Except DmxArrayError LightsResult :=
  match mgr.get_array array_id with
  | .error e => .error e
  | .ok array => static_get_array_light_channels array_id array lights_list

/-! ## Array verification (src/array_manager/verify.rs) -/

/-- The `channel_usage` accumulator of `verify_array_lights`:
universe id → channel → role, embedded as nested association lists. -/
abbrev UsageMap : Type := List (Str × List (Nat × ChannelUsage))

/-- Look a channel's recorded role up in the usage map. -/
def usage_lookup (channel_usage : UsageMap) (universe_id : Str) (channel : Nat) :
    Option ChannelUsage :=
  match lookupA channel_usage universe_id with
  | none => none
  | some universe_usage => lookupA universe_usage channel

/-- Record a new channel role (the `universe_usage.insert(channel, usage)` arm).
The source materializes an empty per-universe map on entry; an empty inner map
and an absent universe key are indistinguishable through `usage_lookup`. -/
def usage_insert (channel_usage : UsageMap) (universe_id : Str) (channel : Nat)
    (usage : ChannelUsage) : UsageMap :=
  match lookupA channel_usage universe_id with
  | none => channel_usage ++ [(universe_id, [(channel, usage)])]
  | some universe_usage => updateA channel_usage universe_id (universe_usage ++ [(channel, usage)])

/-- src/array_manager/verify.rs, closure `add_channel_usage` inside
`verify_array_lights`: an already-recorded conflicting role is
`ArrayLightChannelUsageMismatch`; an unrecorded channel is an error when
`must_exist` (the group pass) and is recorded when not (the `@all` pass). -/
def add_channel_usage (array_id group_name universe_id : Str) (must_exist : Bool)
    (channel_usage : UsageMap) (channel : Nat) (usage : ChannelUsage) :
    Except DmxArrayError UsageMap :=
  match usage_lookup channel_usage universe_id channel with
  | some existing_usage =>
    if existing_usage = usage then .ok channel_usage
    else .error (.arrayLightChannelUsageMismatch array_id universe_id channel
      existing_usage usage group_name)
  | none =>
    if must_exist then
      .error (.arrayLightChannelNotInAllGroup array_id universe_id channel usage group_name)
    else .ok (usage_insert channel_usage universe_id channel usage)

/-- The per-channel-definition role assignments of `verify_array_lights`'s
match on `channel_type`: Single is S at its channel; Rgb is R, G, B on its
three component channels; TriWhite is W1, W2, W3. -/
def channel_pairs : ChannelDefinition → List (Nat × ChannelUsage)
  | .single c => [(c, .S)]
  | .rgb r g b => [(r, .R), (g, .G), (b, .B)]
  | .triWhite w1 w2 w3 => [(w1, .W1), (w2, .W2), (w3, .W3)]

/-- Fold `add_channel_usage` over a list of (channel, role) pairs. -/
def add_usage_pairs (array_id group_name universe_id : Str) (must_exist : Bool) :
    UsageMap → List (Nat × ChannelUsage) → Except DmxArrayError UsageMap
  | channel_usage, [] => .ok channel_usage
  | channel_usage, (channel, usage) :: rest =>
    match add_channel_usage array_id group_name universe_id must_exist
        channel_usage channel usage with
    | .error e => .error e
    | .ok channel_usage' =>
      add_usage_pairs array_id group_name universe_id must_exist channel_usage' rest

/-- The loop of `add_light_usage` over one universe's channel definitions. -/
def add_usage_channels (array_id group_name universe_id : Str) (must_exist : Bool) :
    UsageMap → List ChannelDefinition → Except DmxArrayError UsageMap
  | channel_usage, [] => .ok channel_usage
  | channel_usage, channel_definition :: rest =>
    match add_usage_pairs array_id group_name universe_id must_exist channel_usage
        (channel_pairs channel_definition) with
    | .error e => .error e
    | .ok channel_usage' =>
      add_usage_channels array_id group_name universe_id must_exist channel_usage' rest

/-- src/array_manager/verify.rs, closure `add_light_usage` inside
`verify_array_lights`: fold the role assignments of an expansion result into
the usage map. -/
def add_light_usage (array_id group_name : Str) (must_exist : Bool) :
    UsageMap → List UniverseChannelDefinitions → Except DmxArrayError UsageMap
  | channel_usage, [] => .ok channel_usage
  | channel_usage, ucd :: rest =>
    match add_usage_channels array_id group_name ucd.universe_id must_exist
        channel_usage ucd.channels with
    | .error e => .error e
    | .ok channel_usage' => add_light_usage array_id group_name must_exist channel_usage' rest

/-- The final loop of `verify_array_lights` over every declared light group,
expanded and checked against the usage map with `must_exist = true`. -/
def verify_groups (array_id : Str) (array : DmxArray) :
    UsageMap → List (Str × Str) → Except DmxArrayError Unit
  | _, [] => .ok ()
  | channel_usage, (light_group_name, lights_list) :: rest =>
    match static_get_array_light_channels array_id array lights_list with
    | .error e => .error e
    | .ok lights =>
      match add_light_usage array_id light_group_name true channel_usage lights with
      | .error e => .error e
      | .ok channel_usage' => verify_groups array_id array channel_usage' rest

/-- src/array_manager/verify.rs `ArrayManager::verify_array_lights`: build the
usage map from the `@all` expansion (recording roles), then re-expand every
declared group and require every channel to carry its recorded role. -/
def verify_array_lights (array_id : Str) (array : DmxArray) : Except DmxArrayError Unit :=
  match static_get_array_light_channels array_id array "@all".toList with
  | .error e => .error e
  | .ok all_lights =>
    match add_light_usage array_id "@all".toList false [] all_lights with
    | .error e => .error e
    | .ok channel_usage => verify_groups array_id array channel_usage array.lights

/-- The `has_effect` closure of src/array_manager/verify.rs
`verify_array_effects`. -/
def ArrayManager.has_effect (mgr : ArrayManager) (array : DmxArray) (effect_name : Str) : Bool :=
  (lookupA array.effects effect_name).isSome || (lookupA mgr.effects effect_name).isSome

/-- The preset loop of `verify_array_effects`.  The source checks
`has_on_effect` in the default arm of both the "on" and the "off" preset
effect (the "off" arm re-checks `has_on_effect`); the embedding keeps that
behaviour. -/
def verify_presets (array_id : Str) (has_effect : Str → Bool) (has_on_effect : Bool) :
    Nat → List DmxArrayPreset → Except DmxArrayError Unit
  | _, [] => .ok ()
  | preset_number, preset :: rest =>
    match
      (match preset.«on» with
       | some effect_name =>
         if has_effect effect_name then .ok ()
         else .error (.arrayPresetEffectNotFound array_id preset_number "on".toList effect_name)
       | none =>
         if has_on_effect then .ok ()
         else .error (.arrayPresetDefaultEffectNotFound array_id preset_number "on".toList) :
       Except DmxArrayError Unit) with
    | .error e => .error e
    | .ok () =>
      match
        (match preset.off with
         | some effect_name =>
           if has_effect effect_name then .ok ()
           else .error (.arrayPresetEffectNotFound array_id preset_number "off".toList effect_name)
         | none =>
           if has_on_effect then .ok ()
           else .error (.arrayPresetDefaultEffectNotFound array_id preset_number "off".toList) :
         Except DmxArrayError Unit) with
      | .error e => .error e
      | .ok () => verify_presets array_id has_effect has_on_effect (preset_number + 1) rest

/-- src/array_manager/verify.rs `ArrayManager::verify_array_effects`. -/
def ArrayManager.verify_array_effects (mgr : ArrayManager) (array_id : Str) (array : DmxArray) :
    Except DmxArrayError Unit :=
  let has_on_effect :=
    (lookupA array.effects "on".toList).isSome || (lookupA mgr.effects "on".toList).isSome
  let has_off_effect :=
    (lookupA array.effects "off".toList).isSome || (lookupA mgr.effects "off".toList).isSome
  if array.presets.isEmpty && !has_on_effect && !has_off_effect then
    .error (.arrayNoDefaultEffects array_id)
  else
    verify_presets array_id (mgr.has_effect array) has_on_effect 0 array.presets

/-- src/array_manager/verify.rs `ArrayManager::verify_array`. -/
def ArrayManager.verify_array (mgr : ArrayManager) (array_id : Str) (array : DmxArray) :
    Except DmxArrayError Unit :=
  match mgr.verify_array_effects array_id array with
  | .error e => .error e
  | .ok () => verify_array_lights array_id array

/-- src/array_manager/manager.rs `ArrayManager::add_array`: verify, then
insert; a failed verification leaves the manager unchanged. -/
def ArrayManager.add_array (mgr : ArrayManager) (array_id : Str) (array : DmxArray) :
    Except DmxArrayError ArrayManager :=
  match mgr.verify_array array_id array with
  | .error e => .error e
  | .ok () => .ok { mgr with arrays := insertA mgr.arrays array_id array }

/-! ## Symbol tables and variable expansion (src/array_manager/values.rs) -/

/-- src/array_manager/values.rs `ArrayManager::get_value`: error when the
array does not exist; otherwise the array's own table shadows the global one. -/
def ArrayManager.get_value (mgr : ArrayManager) (array_id value_name : Str) :
    Except DmxArrayError (Option Str) :=
  if (lookupA mgr.arrays array_id).isNone then .error (.arrayNotFound array_id)
  else
    match lookupA mgr.values array_id with
    | some array_values =>
      match lookupA array_values value_name with
      | some value => .ok (some value)
      | none => .ok (lookupA mgr.global_values value_name)
    | none => .ok (lookupA mgr.global_values value_name)

/-- A string split by `breakAtChar` reassembles around the separator. -/
theorem breakAtChar_eq (sep : Char) :
    ∀ (s before after : Str), breakAtChar sep s = some (before, after) →
      s = before ++ sep :: after := by
  intro s
  induction s with
  | nil => intro b a h; simp [breakAtChar] at h
  | cons c rest ih =>
    intro b a h
    by_cases hc : c = sep
    · simp [breakAtChar, hc] at h
      simp [hc, ← h.1, ← h.2]
    · simp [breakAtChar, hc] at h
      match hrec : breakAtChar sep rest with
      | none => rw [hrec] at h; simp at h
      | some (b', a') =>
        rw [hrec] at h
        simp at h
        obtain ⟨b'', ⟨hb', ha'⟩, hcons⟩ := h
        have := ih b' a' hrec
        subst hb' ha'
        rw [← hcons]
        simp [this]

/-- The loop of src/array_manager/values.rs `ArrayManager::expand_values`,
with the accumulated `result` and the remaining `value` slice explicit.
`unexpanded_value` is the original input, carried for error payloads. -/
def expand_go (mgr : ArrayManager) (array_id unexpanded_value : Str) :
    Str → Str → Except DmxArrayError Str
  | result, value =>
    match hb : breakAtChar backquote value with
    | none => .ok (result ++ value)
    | some (before, afterFirst) =>
      match hb2 : breakAtChar backquote afterFirst with
      | none => .error (.valueExpressionNotTerminated array_id unexpanded_value)
      | some (value_name_expression, restStr) =>
        let (value_name, default_value) :=
          match breakAtChar '=' value_name_expression with
          | some (n, d) => (n, some d)
          | none => (value_name_expression, none)
        match mgr.get_value array_id value_name with
        | .error e => .error e
        | .ok (some expanded_value) =>
          expand_go mgr array_id unexpanded_value (result ++ before ++ expanded_value) restStr
        | .ok none =>
          match default_value with
          | some d => expand_go mgr array_id unexpanded_value (result ++ before ++ d) restStr
          | none => .error (.arrayValueNotFound array_id unexpanded_value value_name)
  termination_by _ value => value.length
  decreasing_by
    all_goals
      have e1 := breakAtChar_eq backquote value before afterFirst hb
      have e2 := breakAtChar_eq backquote afterFirst value_name_expression restStr hb2
      subst e1; rw [e2]; simp; omega

/-- src/array_manager/values.rs `ArrayManager::expand_values`: expand every
backquoted `name` / `name=default` reference. -/
def ArrayManager.expand_values (mgr : ArrayManager) (array_id unexpanded_value : Str) :
    Except DmxArrayError Str :=
  expand_go mgr array_id unexpanded_value [] unexpanded_value

/-! ## Scope and effect compilation (src/array_manager/scope.rs, effects.rs,
src/artnet_manager/runtime_nodes.rs `get_runtime_node` impls) -/

/-- src/array_manager/scope.rs `Scope`: the compilation scope.  The borrow of
the array manager is embedded by value; `dimming_amount` is the field read by
`FadeEffectNodeDefinition::get_runtime_node`. -/
structure Scope : Type where
  array_manager : ArrayManager
  array_id : Str
  preset_number : Option Nat
  values : Option SymbolTable
  dimming_amount : DimmingAmount

/-- src/array_manager/scope.rs `Scope::expand_values`. -/
def Scope.expand_values (scope : Scope) (unexpanded_value : Str) : Except DmxArrayError Str :=
  scope.array_manager.expand_values scope.array_id unexpanded_value

/-- src/array_manager/scope.rs `Scope::get_light_channels`. -/
def Scope.get_light_channels (scope : Scope) (lights_list : Str) :
    Except DmxArrayError LightsResult :=
  scope.array_manager.get_array_light_channels scope.array_id lights_list

/-- src/array_manager/values.rs `NumberOrVariable::get_value`: a literal
number, or an expanded-and-parsed variable string.  (The `ValueError` payload
abbreviates the rendered scope to the array id.) -/
def NumberOrVariable.get_value (nv : NumberOrVariable) (scope : Scope) (description : Str) :
    Except DmxArrayError Nat :=
  match nv with
  | .number n => .ok n
  | .«variable» s =>
    match scope.expand_values s with
    | .error e => .error e
    | .ok value =>
      match parse_usize value with
      | some n => .ok n
      | none => .error (.valueError scope.array_id description value)

mutual

/-- The `get_runtime_node` implementations of src/array_manager/effects.rs and
src/artnet_manager/runtime_nodes.rs: compile a definition tree into a runtime
tree under a scope.  Fade expands its lights and target at compile time and
scales the target by the scope's dimming amount unless `no_dimming`. -/
def EffectNodeDefinition.get_runtime_node :
    EffectNodeDefinition → Scope → Except DmxArrayError EffectNode
  | .sequence nodes, scope =>
    match EffectNodeDefinition.get_runtime_nodes nodes scope with
    | .error e => .error e
    | .ok runtime_nodes => .ok (.sequence runtime_nodes 0)
  | .parallel nodes, scope =>
    match EffectNodeDefinition.get_runtime_nodes nodes scope with
    | .error e => .error e
    | .ok runtime_nodes => .ok (.parallel runtime_nodes)
  | .delay ticks, scope =>
    match ticks.get_value scope "delay ticks parameter".toList with
    | .error e => .error e
    | .ok t => .ok (.delay t 0)
  | .fade lights ticks target no_dimming, scope =>
    match scope.expand_values lights with
    | .error e => .error e
    | .ok lights_list =>
      match scope.get_light_channels lights_list with
      | .error e => .error e
      | .ok lights_channels =>
        match ticks.get_value scope "fade ticks parameter".toList with
        | .error e => .error e
        | .ok t =>
          match scope.expand_values target with
          | .error e => .error e
          | .ok target_string =>
            match TargetValue.from_str target_string with
            | .error _ =>
              -- source: DmxArrayError::ValueError(scope, "fade target parameter", e)
              .error (.valueError scope.array_id "fade target parameter".toList target_string)
            | .ok tv =>
              let dimmed := tv.get_dimmed_value
                (if no_dimming then DIMMING_AMOUNT_MAX else scope.dimming_amount)
              .ok (.fade { lights := lights_channels, ticks := t, current_tick := 0,
                           target := dimmed, state := none })

/-- Compile a list of child definitions in order
(the `collect::<Result<Vec<_>>>` of Sequence/Parallel). -/
def EffectNodeDefinition.get_runtime_nodes :
    List EffectNodeDefinition → Scope → Except DmxArrayError (List EffectNode)
  | [], _ => .ok []
  | d :: rest, scope =>
    match EffectNodeDefinition.get_runtime_node d scope with
    | .error e => .error e
    | .ok n =>
      match EffectNodeDefinition.get_runtime_nodes rest scope with
      | .error e => .error e
      | .ok ns => .ok (n :: ns)

end

/-! ## Theorems for the claims -/

/-- C5: For every universe created from a definition with net N <= 127, subnet
S <= 15, universe U <= 15, and channels C <= 512, the constructed Art-Net
packet has byte 14 == (S<<4)|U, byte 15 == N, bytes 16..17 == the big-endian
channel count where the count is C rounded up to even, total length ==
18 + round_up_even(C), bytes 0..7 == "Art-Net\0", bytes 8..9 == opcode 0x5000
little-endian, and bytes 10..11 == 0x00,0x14; definitions exceeding any of
these bounds are rejected with an error. -/
theorem C5_artnet_packet_layout (uid : Str) (d : UniverseDefinition) :
    (d.net ≤ 127 → d.subnet ≤ 15 → d.«universe» ≤ 15 → d.channels ≤ 512 →
      ∃ u, Universe.new uid d = .ok u ∧
        u.packet_bytes.length = 18 + 2 * ((d.channels + 1) / 2) ∧
        u.packet_bytes.take 8 = [0x41, 0x72, 0x74, 0x2d, 0x4e, 0x65, 0x74, 0x00] ∧
        u.packet_bytes[8]? = some 0x00 ∧
        u.packet_bytes[9]? = some 0x50 ∧
        u.packet_bytes[10]? = some 0x00 ∧
        u.packet_bytes[11]? = some 0x14 ∧
        u.packet_bytes[14]? = some (d.subnet <<< 4 ||| d.«universe») ∧
        u.packet_bytes[15]? = some d.net ∧
        u.packet_bytes[16]? = some (2 * ((d.channels + 1) / 2) / 256) ∧
        u.packet_bytes[17]? = some (2 * ((d.channels + 1) / 2) % 256) ∧
        2 * ((d.channels + 1) / 2) % 2 = 0 ∧
        d.channels ≤ 2 * ((d.channels + 1) / 2) ∧
        2 * ((d.channels + 1) / 2) ≤ d.channels + 1) ∧
    (¬(d.net ≤ 127 ∧ d.subnet ≤ 15 ∧ d.«universe» ≤ 15 ∧ d.channels ≤ 512) →
      ∃ e, Universe.new uid d = .error e) := by
  constructor
  · intro h1 h2 h3 h4
    have hnew : Universe.new uid d = .ok
        { description := uid ++ (" (".toList ++ d.description ++ ")".toList),
          packet_bytes :=
            [0x41, 0x72, 0x74, 0x2d, 0x4e, 0x65, 0x74, 0x00]
            ++ [ARTNET_OPCODE_OUTPUT % 256, ARTNET_OPCODE_OUTPUT / 256]
            ++ [0x00, 0x14] ++ [0x00, 0x00]
            ++ [d.subnet <<< 4 ||| d.«universe», d.net]
            ++ [2 * ((d.channels + 1) / 2) / 256, 2 * ((d.channels + 1) / 2) % 256]
            ++ List.replicate (2 * ((d.channels + 1) / 2)) 0 } := by
      simp only [Universe.new]
      rw [if_neg (by omega), if_neg (by omega), if_neg (by omega), if_neg (by omega)]
    refine ⟨_, hnew, by simp; omega, by simp [ARTNET_OPCODE_OUTPUT],
      by simp [ARTNET_OPCODE_OUTPUT], by simp [ARTNET_OPCODE_OUTPUT],
      by simp [ARTNET_OPCODE_OUTPUT], by simp [ARTNET_OPCODE_OUTPUT],
      by simp [ARTNET_OPCODE_OUTPUT], by simp [ARTNET_OPCODE_OUTPUT],
      by simp [ARTNET_OPCODE_OUTPUT], by simp [ARTNET_OPCODE_OUTPUT],
      by omega, by omega, by omega⟩
  · intro h
    simp only [Universe.new]
    by_cases hu : d.«universe» > 15
    · exact ⟨_, by rw [if_pos hu]⟩
    · by_cases hs : d.subnet > 15
      · exact ⟨_, by rw [if_neg hu, if_pos hs]⟩
      · by_cases hn : d.net > 127
        · exact ⟨_, by rw [if_neg hu, if_neg hs, if_pos hn]⟩
        · by_cases hc : d.channels > 512
          · exact ⟨_, by rw [if_neg hu, if_neg hs, if_neg hn, if_pos hc]⟩
          · omega

/-- Witness for C5 at a concrete definition. -/
theorem C5_artnet_packet_layout_witness :
    ∃ u, Universe.new "test".toList
        { description := "Test Universe".toList, net := 1, subnet := 2,
          «universe» := 3, channels := 306 } = .ok u ∧
      u.packet_bytes.length = 18 + 2 * ((306 + 1) / 2) ∧
      u.packet_bytes.take 8 = [0x41, 0x72, 0x74, 0x2d, 0x4e, 0x65, 0x74, 0x00] ∧
      u.packet_bytes[8]? = some 0x00 ∧
      u.packet_bytes[9]? = some 0x50 ∧
      u.packet_bytes[10]? = some 0x00 ∧
      u.packet_bytes[11]? = some 0x14 ∧
      u.packet_bytes[14]? = some (2 <<< 4 ||| 3) ∧
      u.packet_bytes[15]? = some 1 ∧
      u.packet_bytes[16]? = some (2 * ((306 + 1) / 2) / 256) ∧
      u.packet_bytes[17]? = some (2 * ((306 + 1) / 2) % 256) ∧
      2 * ((306 + 1) / 2) % 2 = 0 ∧
      306 ≤ 2 * ((306 + 1) / 2) ∧
      2 * ((306 + 1) / 2) ≤ 306 + 1 :=
  (C5_artnet_packet_layout "test".toList
    { description := "Test Universe".toList, net := 1, subnet := 2,
      «universe» := 3, channels := 306 }).1
    (by decide) (by decide) (by decide) (by decide)

/-! ### Effect ticks never touch the active-effects map -/

theorem set_channel_preserves_active (m : ArtnetManager) (uid : Str) (v : ChannelValue)
    (m' : ArtnetManager) (h : m.set_channel uid v = .ok m') :
    m'.active_effects = m.active_effects := by
  unfold ArtnetManager.set_channel at h
  split at h
  · split at h
    · cases h; rfl
    · cases h
  · cases h

theorem tick_channel_states_preserves_active (uid : Str) (l : List FadeEffectChannelState) :
    ∀ m l' m', FadeEffectNode.tick_channel_states uid l m = .ok (l', m') →
      m'.active_effects = m.active_effects := by
  induction l with
  | nil =>
    intro m l' m' h
    simp only [FadeEffectNode.tick_channel_states] at h
    cases h; rfl
  | cons cs rest ih =>
    intro m l' m' h
    simp only [FadeEffectNode.tick_channel_states] at h
    split at h
    · cases h
    · rename_i m1 hset
      split at h
      · cases h
      · rename_i rest' m2 hrest
        cases h
        exact (ih m1 _ _ hrest).trans (set_channel_preserves_active m uid _ m1 hset)

theorem tick_universe_states_preserves_active (l : List FadeEffectUniverseState) :
    ∀ m l' m', FadeEffectNode.tick_universe_states l m = .ok (l', m') →
      m'.active_effects = m.active_effects := by
  induction l with
  | nil =>
    intro m l' m' h
    simp only [FadeEffectNode.tick_universe_states] at h
    cases h; rfl
  | cons us rest ih =>
    intro m l' m' h
    simp only [FadeEffectNode.tick_universe_states] at h
    split at h
    · cases h
    · rename_i cs1 m1 hcs
      split at h
      · cases h
      · rename_i rest' m2 hrest
        cases h
        exact (ih m1 _ _ hrest).trans
          (tick_channel_states_preserves_active us.universe_id us.channel_states m cs1 m1 hcs)

theorem run_phase_preserves_active (node : FadeEffectNode) (m : ArtnetManager)
    (node' : FadeEffectNode) (m' : ArtnetManager)
    (h : node.run_phase m = .ok (node', m')) : m'.active_effects = m.active_effects := by
  unfold FadeEffectNode.run_phase at h
  split at h
  · split at h
    · cases h
    · next st =>
      split at h
      · cases h
      · next p hus => cases h; exact tick_universe_states_preserves_active _ m _ _ hus
  · cases h; rfl

theorem fade_tick_preserves_active (node : FadeEffectNode) (m : ArtnetManager)
    (node' : FadeEffectNode) (m' : ArtnetManager)
    (h : node.tick m = .ok (node', m')) : m'.active_effects = m.active_effects := by
  unfold FadeEffectNode.tick at h
  split at h
  · exact run_phase_preserves_active _ _ _ _ h
  · split at h
    · cases h
    · next st =>
      split at h
      · exact run_phase_preserves_active _ _ _ _ h
      · exact run_phase_preserves_active _ _ _ _ h

theorem tick_at_preserves_active (l : List EffectNode)
    (IH : ∀ x ∈ l, ∀ m x' m', EffectNode.tick x m = .ok (x', m') →
      m'.active_effects = m.active_effects) :
    ∀ i m l' d m', EffectNode.tick_at l i m = .ok (l', d, m') →
      m'.active_effects = m.active_effects := by
  induction l with
  | nil =>
    intro i m l' d m' h
    simp only [EffectNode.tick_at] at h
    cases h; rfl
  | cons n rest ih =>
    intro i m l' d m' h
    match i with
    | 0 =>
      simp only [EffectNode.tick_at] at h
      split at h
      · cases h
      · rename_i n1 m1 htick
        cases h
        exact IH n (List.mem_cons_self n rest) m _ _ htick
    | i + 1 =>
      simp only [EffectNode.tick_at] at h
      split at h
      · cases h
      · rename_i rest' d1 m1 hrest
        cases h
        exact ih (fun x hx => IH x (List.mem_cons_of_mem n hx)) i m _ _ _ hrest

theorem tick_all_preserves_active (l : List EffectNode)
    (IH : ∀ x ∈ l, ∀ m x' m', EffectNode.tick x m = .ok (x', m') →
      m'.active_effects = m.active_effects) :
    ∀ m l' m', EffectNode.tick_all l m = .ok (l', m') →
      m'.active_effects = m.active_effects := by
  induction l with
  | nil =>
    intro m l' m' h
    simp only [EffectNode.tick_all] at h
    cases h; rfl
  | cons n rest ih =>
    intro m l' m' h
    simp only [EffectNode.tick_all] at h
    split at h
    · cases h
    · rename_i n1 m1 htick
      split at h
      · cases h
      · rename_i rest' m2 hrest
        cases h
        exact (ih (fun x hx => IH x (List.mem_cons_of_mem n hx)) m1 _ _ hrest).trans
          (IH n (List.mem_cons_self n rest) m n1 m1 htick)

theorem effect_tick_preserves_active :
    ∀ (n : EffectNode) (m : ArtnetManager) (n' : EffectNode) (m' : ArtnetManager),
      EffectNode.tick n m = .ok (n', m') → m'.active_effects = m.active_effects := by
  have main : ∀ (k : Nat) (n : EffectNode), sizeOf n ≤ k →
      ∀ m n' m', EffectNode.tick n m = .ok (n', m') →
        m'.active_effects = m.active_effects := by
    intro k
    induction k with
    | zero =>
      intro n hn
      exfalso
      cases n <;> simp at hn <;> omega
    | succ k ih =>
      intro n hn m n' m' h
      cases n with
      | sequence nodes current_node =>
        have hsz : ∀ x ∈ nodes, sizeOf x ≤ k := by
          intro x hx
          have h1 := List.sizeOf_lt_of_mem hx
          simp at hn
          omega
        simp only [EffectNode.tick] at h
        split at h
        · split at h
          · cases h
          · rename_i nodes' d m1 hat
            cases h
            exact tick_at_preserves_active nodes (fun x hx => ih x (hsz x hx))
              current_node m _ _ _ hat
        · cases h; rfl
      | parallel nodes =>
        have hsz : ∀ x ∈ nodes, sizeOf x ≤ k := by
          intro x hx
          have h1 := List.sizeOf_lt_of_mem hx
          simp at hn
          omega
        simp only [EffectNode.tick] at h
        split at h
        · cases h
        · rename_i nodes' m1 hall
          cases h
          exact tick_all_preserves_active nodes (fun x hx => ih x (hsz x hx)) m _ _ hall
      | delay ticks current_tick =>
        simp only [EffectNode.tick] at h
        cases h; rfl
      | fade node =>
        simp only [EffectNode.tick] at h
        split at h
        · cases h
        · rename_i node' m1 hfade
          cases h
          exact fade_tick_preserves_active node m _ _ hfade
  intro n
  exact main (sizeOf n) n (le_refl _)

theorem tick_active_preserves_active (l : List (Str × EffectNode)) :
    ∀ m, ((ArtnetManager.tick_active l m).2).active_effects = m.active_effects := by
  induction l with
  | nil => intro m; rfl
  | cons p rest ih =>
    intro m
    simp only [ArtnetManager.tick_active]
    split
    · rfl
    · rename_i eff' m1 htick
      split
      · rename_i rest' m2 hrest
        have := ih m1
        rw [hrest] at this
        exact this.trans (effect_tick_preserves_active p.2 m eff' m1 htick)
      · rename_i e m2 hrest
        have := ih m1
        rw [hrest] at this
        exact this.trans (effect_tick_preserves_active p.2 m eff' m1 htick)

/-- On success, `tick_active` returns the once-ticked effect for every id, in
order: no id is dropped. -/
theorem tick_active_ids (l : List (Str × EffectNode)) :
    ∀ m l', (ArtnetManager.tick_active l m).1 = .ok l' →
      l'.map Prod.fst = l.map Prod.fst := by
  induction l with
  | nil =>
    intro m l' h
    simp only [ArtnetManager.tick_active] at h
    cases h; rfl
  | cons p rest ih =>
    intro m l' h
    simp only [ArtnetManager.tick_active] at h
    split at h
    · cases h
    · rename_i eff' m1 htick
      split at h
      · rename_i rest' m2 hrest
        cases h
        simp only [List.map_cons]
        rw [ih m1 rest' (by rw [hrest])]
      · cases h

/-- C2 (amended): after a successful ArtnetManager tick operation, the manager
took ownership of the active-effects map (leaving it empty), advanced every
effect by one tick, and reinstalled the map in full: every id — including the
ids of effects whose `is_done()` became true during that tick — is still in
the active-effects map.  Completed effects are NOT removed by `tick`. -/
theorem C2_tick_reinstalls_full_map (m : ArtnetManager)
    (h : (ArtnetManager.tick m).1 = .ok ()) :
    ((ArtnetManager.tick m).2).active_effects.map Prod.fst
      = m.active_effects.map Prod.fst := by
  have heq : ArtnetManager.tick m =
      (match ArtnetManager.tick_active m.active_effects { m with active_effects := [] } with
       | (.ok ticked, m2) => (.ok (), { m2 with active_effects := ticked })
       | (.error e, m2) => (.error e, m2)) := rfl
  rcases hta : ArtnetManager.tick_active m.active_effects { m with active_effects := [] }
    with ⟨r, m2⟩
  rw [heq, hta] at h ⊢
  cases r with
  | ok ticked =>
    simpa using tick_active_ids m.active_effects { m with active_effects := [] } ticked
      (by rw [hta])
  | error e => simp at h

/-- Witness for the amended C2 at a concrete manager. -/
theorem C2_tick_reinstalls_full_map_witness :
    (ArtnetManager.tick
        { universes := [], set_channel_log := [],
          active_effects := [("d".toList, .delay 1 0)] }).1 = .ok () ∧
    ((ArtnetManager.tick
        { universes := [], set_channel_log := [],
          active_effects := [("d".toList, .delay 1 0)] }).2).active_effects.map Prod.fst
      = [("d".toList, EffectNode.delay 1 0)].map Prod.fst :=
  ⟨rfl, C2_tick_reinstalls_full_map _ rfl⟩

/-- Counterexample to C2 as stated: a manager holding a single Delay effect
with `ticks = 1`.  During the tick the delay advances to `current_tick = 1`
and its `is_done()` becomes true, yet after the tick the effect is still in
the active-effects map — it has not been removed. -/
theorem C2_counterexample_done_effect_not_removed :
    (ArtnetManager.tick
        { universes := [], set_channel_log := [],
          active_effects := [("d".toList, .delay 1 0)] }).1 = .ok () ∧
    EffectNode.is_done (.delay 1 1) = true ∧
    lookupA ((ArtnetManager.tick
        { universes := [], set_channel_log := [],
          active_effects := [("d".toList, .delay 1 0)] }).2).active_effects "d".toList
      = some (.delay 1 1) :=
  ⟨rfl, rfl, rfl⟩

/-- C10: If any active effect's tick returns an error, ArtnetManager::tick
propagates the error before reinstalling the map it took ownership of, so
after the failed tick the active-effects map is empty: every active effect,
including effects unrelated to the one that failed, is discarded. -/
theorem C10_tick_error_empties_active_effects (m : ArtnetManager) (e : Fault)
    (h : (ArtnetManager.tick m).1 = .error e) :
    ((ArtnetManager.tick m).2).active_effects = [] := by
  have heq : ArtnetManager.tick m =
      (match ArtnetManager.tick_active m.active_effects { m with active_effects := [] } with
       | (.ok ticked, m2) => (.ok (), { m2 with active_effects := ticked })
       | (.error e, m2) => (.error e, m2)) := rfl
  rcases hta : ArtnetManager.tick_active m.active_effects { m with active_effects := [] }
    with ⟨r, m2⟩
  rw [heq, hta] at h ⊢
  cases r with
  | ok ticked => simp at h
  | error e' =>
    have := tick_active_preserves_active m.active_effects { m with active_effects := [] }
    rw [hta] at this
    simpa using this

/-- Witness for C10: a manager with an unrelated Delay effect and a Fade
effect over an undefined universe.  The fade's first tick fails with
`InvalidUniverse`, and afterwards the active-effects map is empty — the
healthy Delay effect is discarded too. -/
theorem C10_tick_error_empties_active_effects_witness :
    (ArtnetManager.tick
        { universes := [], set_channel_log := [],
          active_effects :=
            [("a".toList, .delay 5 0),
             ("b".toList, .fade { lights := [⟨"u".toList, [.single 0]⟩], ticks := 3,
                                  current_tick := 0,
                                  target := { single := some 10, rgb := none, tri_white := none },
                                  state := none })] }).1
      = .error (.artnet (.invalidUniverse "u".toList)) ∧
    ((ArtnetManager.tick
        { universes := [], set_channel_log := [],
          active_effects :=
            [("a".toList, .delay 5 0),
             ("b".toList, .fade { lights := [⟨"u".toList, [.single 0]⟩], ticks := 3,
                                  current_tick := 0,
                                  target := { single := some 10, rgb := none, tri_white := none },
                                  state := none })] }).2).active_effects = [] :=
  ⟨rfl, C10_tick_error_empties_active_effects _ _ rfl⟩

/-- Does the target value carry a value for the family of this channel?
(The condition under which `initialize_channel_state` builds deltas rather
than skipping the channel.) -/
def targetHasFamily (tv : TargetValue) : ChannelDefinition → Bool
  | .single _ => tv.single.isSome
  | .rgb _ _ _ => tv.rgb.isSome
  | .triWhite _ _ _ => tv.tri_white.isSome

/-- C9: DmxChannelDelta::new divides the component delta by the tick count
without guarding against zero: for every Fade node with ticks == 0 whose
target contains a family matching at least one of its channels, the first
tick's state initialization performs a division by zero (a panic — `crash` —
not a returned error), even though ticks: 0 is accepted by effect
compilation. -/
theorem C9_fade_zero_ticks_crashes :
    (∀ current_value target_value : Nat,
      DmxChannelDelta.new current_value target_value 0 = .error .crash) ∧
    (∀ (uid : Str) (cd : ChannelDefinition) (target : TargetValue)
        (m : ArtnetManager) (u : Universe),
      lookupA m.universes uid = some u →
      (cd.componentIndices.all
        (fun i => decide (DMX_DATA_OFFSET + i + 1 ≤ u.packet_bytes.length))) = true →
      targetHasFamily target cd = true →
      FadeEffectNode.tick
        { lights := [⟨uid, [cd]⟩], ticks := 0, current_tick := 0,
          target := target, state := none } m = .error .crash) ∧
    -- ticks: 0 is accepted by effect compilation (no check in get_runtime_node)
    (∃ node : FadeEffectNode,
      EffectNodeDefinition.get_runtime_node
        (.fade "@all".toList (.number 0) "s(0)".toList false)
        { array_manager :=
            { ArrayManager.new with arrays :=
                [("a".toList,
                  { description := "arr".toList, universe_id := "0".toList,
                    lights := [("all".toList, "s:0".toList)] })] },
          array_id := "a".toList, preset_number := none, values := none,
          dimming_amount := 1000 } = .ok (.fade node) ∧
      node.ticks = 0) := by
  refine ⟨fun _ _ => rfl, ?_, ?_⟩
  · intro uid cd target m u hlook hbounds hfam
    cases cd with
    | single c =>
      match hs : target.single with
      | none => rw [targetHasFamily] at hfam; rw [hs] at hfam; simp at hfam
      | some t =>
        simp only [FadeEffectNode.tick, FadeEffectNode.initialize_state, List.foldlM,
          FadeEffectNode.initialize_universe_state, FadeEffectNode.initialize_channel_state,
          ArtnetManager.get_channel, Universe.get_channel, hlook]
        rw [if_pos hbounds]
        simp [hs, DmxChannelDelta.new, Bind.bind, Except.bind]
    | rgb r g b =>
      match hs : target.rgb with
      | none => rw [targetHasFamily] at hfam; rw [hs] at hfam; simp at hfam
      | some t =>
        simp only [FadeEffectNode.tick, FadeEffectNode.initialize_state, List.foldlM,
          FadeEffectNode.initialize_universe_state, FadeEffectNode.initialize_channel_state,
          ArtnetManager.get_channel, Universe.get_channel, hlook]
        rw [if_pos hbounds]
        simp [hs, DmxChannelDelta.new, Bind.bind, Except.bind]
    | triWhite w1 w2 w3 =>
      match hs : target.tri_white with
      | none => rw [targetHasFamily] at hfam; rw [hs] at hfam; simp at hfam
      | some t =>
        simp only [FadeEffectNode.tick, FadeEffectNode.initialize_state, List.foldlM,
          FadeEffectNode.initialize_universe_state, FadeEffectNode.initialize_channel_state,
          ArtnetManager.get_channel, Universe.get_channel, hlook]
        rw [if_pos hbounds]
        simp [hs, DmxChannelDelta.new, Bind.bind, Except.bind]
  · refine ⟨{ lights := [⟨"0".toList, [.single 0]⟩], ticks := 0, current_tick := 0,
              target := { single := some 0, rgb := none, tri_white := none },
              state := none }, ?_, rfl⟩
    simp only [EffectNodeDefinition.get_runtime_node]
    simp [Scope.expand_values, ArrayManager.expand_values, expand_go, breakAtChar,
      backquote, Scope.get_light_channels, ArrayManager.get_array_light_channels,
      ArrayManager.get_array, lookupA, static_get_array_light_channels,
      static_do_get_array_light_channels, static_do_entries, split_entries, splitOnChar,
      splitOnCharAux, stripPrefixChar, trim, ChannelDefinition.from_str, parse_u16,
      parseNatDigits,
      NumberOrVariable.get_value, TargetValue.from_str, DimmerValue.from_str, parse_u8,
      addResultChannel, TargetValue.get_dimmed_value, ArrayManager.new]
    rfl

/-- Witness for C9: a zero-tick fade over one in-range single channel with a
single-family target panics on its first tick. -/
theorem C9_fade_zero_ticks_crashes_witness :
    FadeEffectNode.tick
      { lights := [⟨"u".toList, [.single 0]⟩], ticks := 0, current_tick := 0,
        target := { single := some 5, rgb := none, tri_white := none }, state := none }
      { universes := [("u".toList, { description := [], packet_bytes := List.replicate 20 0 })],
        active_effects := [], set_channel_log := [] } = .error .crash :=
  C9_fade_zero_ticks_crashes.2.1 "u".toList (.single 0)
    { single := some 5, rgb := none, tri_white := none }
    { universes := [("u".toList, { description := [], packet_bytes := List.replicate 20 0 })],
      active_effects := [], set_channel_log := [] }
    { description := [], packet_bytes := List.replicate 20 0 }
    (by decide) (by decide) (by decide)

/-- The current value read back for a channel agrees with the target on every
component of the families the target carries (the "no fade needed" premise). -/
def valuesMatch (tv : TargetValue) : DimmerValue → Prop
  | .single v => ∀ t, tv.single = some t → t = v
  | .rgb r g b => ∀ t, tv.rgb = some t → t = (r, g, b)
  | .triWhite w1 w2 w3 => ∀ t, tv.tri_white = some t → t = (w1, w2, w3)

/-- A delta from a value to itself needs no fade (for a nonzero tick count). -/
theorem new_self_not_needed (s N : Nat) (hN : N ≠ 0) (d : DmxChannelDelta)
    (h : DmxChannelDelta.new s s N = .ok d) : d.is_fade_needed = false := by
  unfold DmxChannelDelta.new at h
  rw [if_neg hN] at h
  cases h
  simp [DmxChannelDelta.is_fade_needed]

theorem init_channel_state_not_needed (node : FadeEffectNode) (m : ArtnetManager)
    (uid : Str) (cd : ChannelDefinition) (hticks : node.ticks ≠ 0)
    (heq : ∀ cv, m.get_channel uid cd = .ok cv → valuesMatch node.target cv.value)
    (r : Option FadeEffectChannelState)
    (h : node.initialize_channel_state m uid cd = .ok r) :
    ∀ cs, r = some cs → cs.is_fade_needed = false := by
  intro cs hr
  subst hr
  unfold FadeEffectNode.initialize_channel_state at h
  cases hget : m.get_channel uid cd with
  | error e => rw [hget] at h; cases h
  | ok cv =>
    rw [hget] at h
    simp only [] at h
    have hmatch := heq cv hget
    cases hv : cv.value with
    | single v =>
      rw [hv] at h hmatch
      cases hs : node.target.single with
      | none => rw [hs] at h; simp at h
      | some t =>
        rw [hs] at h
        have ht : t = v := hmatch t hs
        subst ht
        simp only [bind, Except.bind] at h
        cases hd : DmxChannelDelta.new t t node.ticks with
        | error e => rw [hd] at h; simp at h
        | ok d =>
          rw [hd] at h
          injection h with h1
          injection h1 with h2
          subst h2
          simp only [FadeEffectChannelState.is_fade_needed, FadeEffectDimmerState.is_fade_needed]
          exact new_self_not_needed t node.ticks hticks d hd
    | rgb r1 g1 b1 =>
      rw [hv] at h hmatch
      cases hs : node.target.rgb with
      | none => rw [hs] at h; simp at h
      | some t =>
        rw [hs] at h
        have ht : t = (r1, g1, b1) := hmatch t hs
        subst ht
        simp only [bind, Except.bind] at h
        cases hd1 : DmxChannelDelta.new r1 r1 node.ticks with
        | error e => rw [hd1] at h; simp at h
        | ok d1 =>
          rw [hd1] at h
          cases hd2 : DmxChannelDelta.new g1 g1 node.ticks with
          | error e => rw [hd2] at h; simp at h
          | ok d2 =>
            rw [hd2] at h
            cases hd3 : DmxChannelDelta.new b1 b1 node.ticks with
            | error e => rw [hd3] at h; simp at h
            | ok d3 =>
              rw [hd3] at h
              injection h with h1
              injection h1 with h2
              subst h2
              simp only [FadeEffectChannelState.is_fade_needed,
                FadeEffectDimmerState.is_fade_needed]
              rw [new_self_not_needed r1 node.ticks hticks d1 hd1,
                new_self_not_needed g1 node.ticks hticks d2 hd2,
                new_self_not_needed b1 node.ticks hticks d3 hd3]
              rfl
    | triWhite w1 w2 w3 =>
      rw [hv] at h hmatch
      cases hs : node.target.tri_white with
      | none => rw [hs] at h; simp at h
      | some t =>
        rw [hs] at h
        have ht : t = (w1, w2, w3) := hmatch t hs
        subst ht
        simp only [bind, Except.bind] at h
        cases hd1 : DmxChannelDelta.new w1 w1 node.ticks with
        | error e => rw [hd1] at h; simp at h
        | ok d1 =>
          rw [hd1] at h
          cases hd2 : DmxChannelDelta.new w2 w2 node.ticks with
          | error e => rw [hd2] at h; simp at h
          | ok d2 =>
            rw [hd2] at h
            cases hd3 : DmxChannelDelta.new w3 w3 node.ticks with
            | error e => rw [hd3] at h; simp at h
            | ok d3 =>
              rw [hd3] at h
              injection h with h1
              injection h1 with h2
              subst h2
              simp only [FadeEffectChannelState.is_fade_needed,
                FadeEffectDimmerState.is_fade_needed]
              rw [new_self_not_needed w1 node.ticks hticks d1 hd1,
                new_self_not_needed w2 node.ticks hticks d2 hd2,
                new_self_not_needed w3 node.ticks hticks d3 hd3]
              rfl

theorem init_universe_state_not_needed (node : FadeEffectNode) (m : ArtnetManager)
    (ucd : UniverseChannelDefinitions) (hticks : node.ticks ≠ 0)
    (heq : ∀ cd ∈ ucd.channels, ∀ cv, m.get_channel ucd.universe_id cd = .ok cv →
      valuesMatch node.target cv.value) :
    ∀ l, node.initialize_universe_state m ucd = .ok l →
      ∀ cs ∈ l, cs.is_fade_needed = false := by
  unfold FadeEffectNode.initialize_universe_state
  have main : ∀ (channels : List ChannelDefinition),
      (∀ cd ∈ channels, ∀ cv, m.get_channel ucd.universe_id cd = .ok cv →
        valuesMatch node.target cv.value) →
      ∀ (acc : List FadeEffectChannelState), (∀ cs ∈ acc, cs.is_fade_needed = false) →
      ∀ l, (channels.foldlM
          (fun (acc : List FadeEffectChannelState) channel => do
            match ← node.initialize_channel_state m ucd.universe_id channel with
            | some channel_state => pure (acc ++ [channel_state])
            | none => pure acc) acc) = .ok l →
        ∀ cs ∈ l, cs.is_fade_needed = false := by
    intro channels
    induction channels with
    | nil =>
      intro _ acc hacc l h
      simp only [List.foldlM_nil] at h
      cases h
      exact hacc
    | cons cd rest ih =>
      intro hch acc hacc l h
      simp only [List.foldlM_cons, bind, Except.bind] at h
      cases hcs : node.initialize_channel_state m ucd.universe_id cd with
      | error e => rw [hcs] at h; simp at h
      | ok r =>
        rw [hcs] at h
        have hr := init_channel_state_not_needed node m ucd.universe_id cd hticks
          (hch cd (List.mem_cons_self cd rest)) r hcs
        cases r with
        | none =>
          simp only [] at h
          exact ih (fun c hc => hch c (List.mem_cons_of_mem cd hc)) acc hacc l h
        | some cs' =>
          simp only [] at h
          refine ih (fun c hc => hch c (List.mem_cons_of_mem cd hc)) (acc ++ [cs']) ?_ l h
          intro cs hmem
          rcases List.mem_append.mp hmem with hmem | hmem
          · exact hacc cs hmem
          · simp at hmem
            subst hmem
            exact hr _ rfl
  intro l h
  exact main ucd.channels heq [] (by simp) l h

theorem init_state_not_needed (node : FadeEffectNode) (m : ArtnetManager)
    (st : FadeEffectState) (hticks : node.ticks ≠ 0)
    (heq : ∀ ucd ∈ node.lights, ∀ cd ∈ ucd.channels, ∀ cv,
      m.get_channel ucd.universe_id cd = .ok cv → valuesMatch node.target cv.value)
    (h : node.initialize_state m = .ok st) : st.fade_needed = false := by
  unfold FadeEffectNode.initialize_state at h
  have main : ∀ (lights : List UniverseChannelDefinitions),
      (∀ ucd ∈ lights, ∀ cd ∈ ucd.channels, ∀ cv,
        m.get_channel ucd.universe_id cd = .ok cv → valuesMatch node.target cv.value) →
      ∀ (acc : List FadeEffectUniverseState),
        (∀ us ∈ acc, us.fade_needed = false) →
      ∀ r, (lights.foldlM
          (fun (acc : List FadeEffectUniverseState) «universe» => do
            let channel_states ← node.initialize_universe_state m «universe»
            pure (acc ++ [({ universe_id := «universe».universe_id, channel_states } :
              FadeEffectUniverseState)])) acc)
          = .ok r →
        ∀ us ∈ r, us.fade_needed = false := by
    intro lights
    induction lights with
    | nil =>
      intro _ acc hacc r h
      simp only [List.foldlM_nil] at h
      cases h
      exact hacc
    | cons ucd rest ih =>
      intro hl acc hacc r h
      simp only [List.foldlM_cons, bind, Except.bind] at h
      cases hus : node.initialize_universe_state m ucd with
      | error e => rw [hus] at h; simp at h
      | ok channel_states =>
        rw [hus] at h
        simp only [] at h
        refine ih (fun u hu => hl u (List.mem_cons_of_mem ucd hu)) _ ?_ r h
        intro us hmem
        rcases List.mem_append.mp hmem with hmem | hmem
        · exact hacc us hmem
        · simp at hmem
          subst hmem
          simp only [FadeEffectUniverseState.fade_needed]
          rw [List.any_eq_false]
          intro cs hcs
          rw [init_universe_state_not_needed node m ucd hticks
            (hl ucd (List.mem_cons_self ucd rest)) channel_states hus cs hcs]
          simp
  simp only [bind, Except.bind] at h
  split at h
  · cases h
  · rename_i r hf
    simp only [pure, Except.pure] at h
    cases h
    simp only [FadeEffectState.fade_needed]
    rw [List.any_eq_false]
    intro us hus
    rw [main node.lights heq [] (by simp) r (by exact hf) us hus]
    simp

/-- C8 (amended: the fade must have a nonzero tick count — a zero-tick fade
panics in state initialization, see C9): for every Fade node with
`ticks ≥ 1`, if on its first tick the current value read back from the
universes equals the target value on every component of every channel, the
Fade sets itself to done immediately (completes in 0 ticks) and performs no
SetChannel call, leaving the manager — in particular every universe's DMX
frame and the write trace — unchanged. -/
theorem C8_no_fade_needed_completes_immediately (node : FadeEffectNode) (m : ArtnetManager)
    (st : FadeEffectState) (hticks : 1 ≤ node.ticks) (hstate : node.state = none)
    (hinit : node.initialize_state m = .ok st)
    (heq : ∀ ucd ∈ node.lights, ∀ cd ∈ ucd.channels, ∀ cv,
      m.get_channel ucd.universe_id cd = .ok cv → valuesMatch node.target cv.value) :
    node.tick m = .ok ({ node with current_tick := node.ticks }, m) ∧
    FadeEffectNode.is_done { node with current_tick := node.ticks } = true := by
  have hnn : st.fade_needed = false :=
    init_state_not_needed node m st (by omega) heq hinit
  constructor
  · unfold FadeEffectNode.tick
    rw [hstate]
    simp only []
    rw [hinit]
    simp only [hnn]
    simp only [Bool.false_eq_true, if_false]
    unfold FadeEffectNode.run_phase
    simp
  · simp [FadeEffectNode.is_done]

/-- Witness for the amended C8: a one-tick fade whose single channel already
holds the target byte completes immediately without writing. -/
theorem C8_no_fade_needed_completes_immediately_witness :
    FadeEffectNode.tick
      { lights := [⟨"u".toList, [.single 0]⟩], ticks := 1, current_tick := 0,
        target := { single := some 0, rgb := none, tri_white := none }, state := none }
      { universes := [("u".toList, { description := [], packet_bytes := List.replicate 20 0 })],
        active_effects := [], set_channel_log := [] }
      = .ok ({ lights := [⟨"u".toList, [.single 0]⟩], ticks := 1, current_tick := 1,
               target := { single := some 0, rgb := none, tri_white := none }, state := none },
             { universes := [("u".toList,
                 { description := [], packet_bytes := List.replicate 20 0 })],
               active_effects := [], set_channel_log := [] }) :=
  (C8_no_fade_needed_completes_immediately
    { lights := [⟨"u".toList, [.single 0]⟩], ticks := 1, current_tick := 0,
      target := { single := some 0, rgb := none, tri_white := none }, state := none }
    { universes := [("u".toList, { description := [], packet_bytes := List.replicate 20 0 })],
      active_effects := [], set_channel_log := [] }
    _ (by decide) rfl rfl
    (by
      intro ucd hucd cd hcd cv hcv
      simp at hucd
      subst hucd
      simp at hcd
      subst hcd
      have hcv' : ({ channel := .single 0, value := .single 0 } : ChannelValue) = cv :=
        Except.ok.inj (show Except.ok ({ channel := .single 0, value := .single 0 } : ChannelValue)
          = Except.ok cv from hcv)
      subst hcv'
      intro t ht
      injection ht with ht
      exact ht.symm)).1

/-- Counterexample to C8 as stated: a Fade node with `ticks = 0` whose single
channel already equals the target.  Its first tick panics in
`DmxChannelDelta::new` (division by zero) instead of completing: there is no
successful tick that marks it done and leaves the manager unchanged. -/
theorem C8_counterexample_zero_ticks :
    FadeEffectNode.tick
      { lights := [⟨"u".toList, [.single 0]⟩], ticks := 0, current_tick := 0,
        target := { single := some 0, rgb := none, tri_white := none }, state := none }
      { universes := [("u".toList, { description := [], packet_bytes := List.replicate 20 0 })],
        active_effects := [], set_channel_log := [] } = .error .crash ∧
    ¬ ∃ (node' : FadeEffectNode) (m' : ArtnetManager),
        FadeEffectNode.tick
          { lights := [⟨"u".toList, [.single 0]⟩], ticks := 0, current_tick := 0,
            target := { single := some 0, rgb := none, tri_white := none }, state := none }
          { universes := [("u".toList,
              { description := [], packet_bytes := List.replicate 20 0 })],
            active_effects := [], set_channel_log := [] } = .ok (node', m') := by
  refine ⟨rfl, ?_⟩
  rintro ⟨node', m', h⟩
  rw [show FadeEffectNode.tick
      { lights := [⟨"u".toList, [.single 0]⟩], ticks := 0, current_tick := 0,
        target := { single := some 0, rgb := none, tri_white := none }, state := none }
      { universes := [("u".toList, { description := [], packet_bytes := List.replicate 20 0 })],
        active_effects := [], set_channel_log := [] } = .error .crash from rfl] at h
  cases h

/-- Whenever the light-expression expansion returns the circular-reference
error, the expansion stack carried in the error is deeper than 5. -/
theorem static_do_entries_circular_stack (array_id : Str) (array : DmxArray) :
    ∀ (entries : List Str) (universe_id : Str) (result : LightsResult) (stack : List Str),
      ∀ (a : Str) (st : List Str) (n e : Str),
        static_do_entries array_id array entries universe_id result stack
          = .error (.arrayLightsCircularReference a st n e) → 5 < st.length := by
  intro entries universe_id result stack
  induction entries, universe_id, result, stack using static_do_entries.induct array_id array with
  | case1 x result x1 =>
    intro a st n e h
    rw [static_do_entries.eq_def] at h
    simp at h
  | case2 entry rest universe_id result stack uid hstrip hlook =>
    intro a st n e h
    rw [static_do_entries.eq_def] at h
    simp only [hstrip, hlook] at h
    simp at h
  | case3 entry rest universe_id result stack uid hstrip nested hlook hdepth =>
    intro a st n e h
    rw [static_do_entries.eq_def] at h
    simp only [hstrip, hlook] at h
    rw [dif_pos hdepth] at h
    simp only [Except.error.injEq, DmxArrayError.arrayLightsCircularReference.injEq] at h
    obtain ⟨-, hst, -, -⟩ := h
    subst hst
    exact hdepth
  | case4 entry rest universe_id result stack uid hstrip nested hlook hdepth e1 herr ih =>
    intro a st n e h
    rw [static_do_entries.eq_def] at h
    simp only [hstrip, hlook] at h
    rw [dif_neg hdepth] at h
    rw [herr] at h
    simp only [Except.error.injEq] at h
    subst h
    exact ih a st n e herr
  | case5 entry rest universe_id result stack uid hstrip nested hlook hdepth result' hok ih1 ih2 =>
    intro a st n e h
    rw [static_do_entries.eq_def] at h
    simp only [hstrip, hlook] at h
    rw [dif_neg hdepth] at h
    rw [hok] at h
    exact ih2 a st n e h
  | case6 entry rest universe_id result stack hstrip1 uid hstrip2 ih =>
    intro a st n e h
    rw [static_do_entries.eq_def] at h
    simp only [hstrip1, hstrip2] at h
    exact ih a st n e h
  | case7 entry rest universe_id result stack hstrip1 hstrip2 ae hparse =>
    intro a st n e h
    rw [static_do_entries.eq_def] at h
    simp only [hstrip1, hstrip2, hparse] at h
    simp at h
  | case8 entry rest universe_id result stack hstrip1 hstrip2 channel hparse ih =>
    intro a st n e h
    rw [static_do_entries.eq_def] at h
    simp only [hstrip1, hstrip2, hparse] at h
    exact ih a st n e h

/-- C3: Light-expression expansion terminates for every input array (cyclic or
not): for every array and every lights expression,
static_get_array_light_channels either returns a result or returns an error
(it is a total function of the embedding, definable by well-founded recursion
on the depth bound), and the circular-reference error is returned exactly when
the expansion stack of nested @group references exceeds depth 5 (the carried
stack is always deeper than 5 when the error is returned, and the concrete
cyclic array below does exceed it); in particular a group that references
itself (all -> loop -> loop) is rejected with an error carrying the expansion
stack. -/
theorem C3_expansion_terminates_and_rejects_cycles :
    (∀ (array_id : Str) (array : DmxArray) (lights_list : Str),
      (∃ r, static_get_array_light_channels array_id array lights_list = .ok r) ∨
      (∃ e, static_get_array_light_channels array_id array lights_list = .error e)) ∧
    (∀ (array_id : Str) (array : DmxArray) (lights_list : Str)
        (a : Str) (st : List Str) (n e : Str),
      static_get_array_light_channels array_id array lights_list
        = .error (.arrayLightsCircularReference a st n e) → 5 < st.length) ∧
    (static_get_array_light_channels "a".toList
        { description := "d".toList, universe_id := "0".toList,
          lights := [("all".toList, "@loop".toList), ("loop".toList, "@loop".toList)] }
        "@all".toList
      = .error (.arrayLightsCircularReference "a".toList
          ["@all".toList, "@loop".toList, "@loop".toList, "@loop".toList, "@loop".toList,
           "@loop".toList] "@loop".toList "@loop".toList)) := by
  refine ⟨?_, ?_, ?_⟩
  · intro array_id array lights_list
    cases h : static_get_array_light_channels array_id array lights_list with
    | ok r => exact Or.inl ⟨r, rfl⟩
    | error e => exact Or.inr ⟨e, rfl⟩
  · intro array_id array lights_list a st n e h
    exact static_do_entries_circular_stack array_id array _ _ _ _ a st n e h
  · simp [static_get_array_light_channels, static_do_get_array_light_channels,
      static_do_entries, split_entries, splitOnChar, splitOnCharAux, trim, stripPrefixChar,
      lookupA]

/-- Witness for C3's conditional part at the concrete cyclic array: the
rejected expansion stack indeed has depth greater than 5. -/
theorem C3_expansion_terminates_and_rejects_cycles_witness :
    5 < (["@all".toList, "@loop".toList, "@loop".toList, "@loop".toList, "@loop".toList,
          "@loop".toList] : List Str).length :=
  C3_expansion_terminates_and_rejects_cycles.2.1 "a".toList
    { description := "d".toList, universe_id := "0".toList,
      lights := [("all".toList, "@loop".toList), ("loop".toList, "@loop".toList)] }
    "@all".toList "a".toList _ "@loop".toList "@loop".toList
    C3_expansion_terminates_and_rejects_cycles.2.2

/-- Counterexample to C7 as stated: in the array with default universe "0" and
`g = "s:1"`, the expression `"$2,@g"` switches the current universe to "2" and
then expands `@g` — but the channel `s:1` inside the nested group is bucketed
under the array default universe "0", not under the outer expression's current
universe "2" as the claim asserts. -/
theorem C7_counterexample_nested_group_ignores_outer_universe :
    static_get_array_light_channels "a".toList
        { description := "d".toList, universe_id := "0".toList,
          lights := [("g".toList, "s:1".toList)] }
        "$2,@g".toList
      = .ok [⟨"0".toList, [.single 1]⟩] ∧
    "0".toList ≠ "2".toList := by
  constructor
  · simp [static_get_array_light_channels, static_do_get_array_light_channels,
      static_do_entries, split_entries, splitOnChar, splitOnCharAux, trim, stripPrefixChar,
      lookupA, ChannelDefinition.from_str, breakAtChar, parse_u16, parseNatDigits,
      addResultChannel]
    rfl
  · decide

/-- C7 (amended): in a lights expression, a `$uid` entry switches the current
universe to uid for the subsequent entries of that same expression only; a
nested `@group` expansion does NOT inherit the universe current in the outer
expression — it restarts from the array's default `universe_id` (its result is
independent of the outer current universe). -/
theorem C7_universe_switch_scoped_to_expression (array_id : Str) (array : DmxArray) :
    (∀ (uid : Str) (rest : List Str) (universe_id : Str) (result : LightsResult)
        (stack : List Str),
      static_do_entries array_id array (('$' :: uid) :: rest) universe_id result stack
        = static_do_entries array_id array rest uid result stack) ∧
    (∀ (g : Str) (universe_id universe_id' : Str) (result : LightsResult) (stack : List Str),
      static_do_entries array_id array [('@' :: g)] universe_id result stack
        = static_do_entries array_id array [('@' :: g)] universe_id' result stack) := by
  constructor
  · intro uid rest universe_id result stack
    rw [static_do_entries.eq_def]
    simp [stripPrefixChar]
  · intro g universe_id universe_id' result stack
    rw [static_do_entries.eq_def]
    conv_rhs => rw [static_do_entries.eq_def]
    simp only [stripPrefixChar, reduceIte]
    cases hl : lookupA array.lights g with
    | none => rfl
    | some nested =>
      simp only []
      by_cases hd : (stack ++ [nested]).length > 5
      · rw [dif_pos hd, dif_pos hd]
      · rw [dif_neg hd, dif_neg hd]
        cases hrec : static_do_entries array_id array (split_entries nested)
            array.universe_id result (stack ++ [nested]) with
        | error e => rfl
        | ok result' =>
          simp only [static_do_entries.eq_1]

theorem breakAtChar_none (sep : Char) (s : Str) (h : sep ∉ s) :
    breakAtChar sep s = none := by
  induction s with
  | nil => rfl
  | cons c rest ih =>
    simp only [breakAtChar]
    rw [if_neg (by intro hc; exact h (hc ▸ List.mem_cons_self c rest))]
    rw [ih (fun hm => h (List.mem_cons_of_mem c hm))]
    rfl

theorem breakAtChar_append (sep : Char) (pre t : Str) (h : sep ∉ pre) :
    breakAtChar sep (pre ++ sep :: t) = some (pre, t) := by
  induction pre with
  | nil => simp [breakAtChar]
  | cons c rest ih =>
    simp only [List.cons_append, breakAtChar, List.append_eq]
    rw [if_neg (by intro hc; exact h (hc ▸ List.mem_cons_self c rest))]
    rw [ih (fun hm => h (List.mem_cons_of_mem c hm))]
    rfl

/-- Text without backquotes is copied through unchanged by the expansion loop. -/
theorem expand_go_copy (mgr : ArrayManager) (array_id orig : Str) (s : Str)
    (h : backquote ∉ s) : ∀ acc, expand_go mgr array_id orig acc s = .ok (acc ++ s) := by
  intro acc
  rw [expand_go.eq_def]
  simp only []
  rw [breakAtChar_none backquote s h]

/-- The array-table half of `get_value`: the binding of the array's own symbol
table, when the array has one. -/
def array_value_lookup (mgr : ArrayManager) (array_id value_name : Str) : Option Str :=
  match lookupA mgr.values array_id with
  | some array_values => lookupA array_values value_name
  | none => none

theorem get_value_eq (mgr : ArrayManager) (array_id value_name : Str)
    (harr : (lookupA mgr.arrays array_id).isSome = true) :
    mgr.get_value array_id value_name
      = .ok (match array_value_lookup mgr array_id value_name with
             | some v => some v
             | none => lookupA mgr.global_values value_name) := by
  unfold ArrayManager.get_value array_value_lookup
  rw [if_neg (by simp [Option.isNone_iff_eq_none]; exact Option.isSome_iff_ne_none.mp harr)]
  cases lookupA mgr.values array_id with
  | none => rfl
  | some array_values =>
    simp only []
    cases lookupA array_values value_name with
    | none => rfl
    | some v => rfl

/-- One resolution step of `expand_values` on a well-formed reference: the name
expression is looked up in the array table, then the global table, then the
default applies, else the expansion fails. -/
theorem expand_values_step (mgr : ArrayManager) (array_id pre ne rest : Str)
    (harr : (lookupA mgr.arrays array_id).isSome = true)
    (hpre : backquote ∉ pre) (hne : backquote ∉ ne) (hrest : backquote ∉ rest) :
    mgr.expand_values array_id (pre ++ backquote :: (ne ++ backquote :: rest))
      = (match (match breakAtChar '=' ne with
                | some (n, d) => (n, some d)
                | none => (ne, none)) with
         | (nm, dflt) =>
           match (match array_value_lookup mgr array_id nm with
                  | some v => some v
                  | none => lookupA mgr.global_values nm) with
           | some v => .ok (pre ++ v ++ rest)
           | none =>
             match dflt with
             | some d => .ok (pre ++ d ++ rest)
             | none => .error (.arrayValueNotFound array_id
                 (pre ++ backquote :: (ne ++ backquote :: rest)) nm)) := by
  unfold ArrayManager.expand_values
  rw [expand_go.eq_def]
  simp only []
  rw [breakAtChar_append backquote pre (ne ++ backquote :: rest) hpre]
  simp only []
  rw [breakAtChar_append backquote ne rest hne]
  simp only []
  cases hsplit : breakAtChar '=' ne with
  | none =>
    simp only []
    rw [get_value_eq mgr array_id ne harr]
    cases hv : (match array_value_lookup mgr array_id ne with
                | some v => some v
                | none => lookupA mgr.global_values ne) with
    | some v =>
      simp only []
      rw [expand_go_copy mgr array_id _ rest hrest]
      simp
    | none => simp only []
  | some p =>
    obtain ⟨nm, dflt⟩ := p
    simp only []
    rw [get_value_eq mgr array_id nm harr]
    cases hv : (match array_value_lookup mgr array_id nm with
                | some v => some v
                | none => lookupA mgr.global_values nm) with
    | some v =>
      simp only []
      rw [expand_go_copy mgr array_id _ rest hrest]
      simp
    | none =>
      simp only []
      rw [expand_go_copy mgr array_id _ rest hrest]
      simp

/-- C6: For every input string, variable expansion resolves each `name` or
`name=default` reference by consulting the array symbol table first, then the
global symbol table, then the literal default if one is given; if no binding
exists and no default is given the expansion returns an error, and a backtick
without a closing backtick returns an unterminated-expression error; text
outside backticks is copied through unchanged. -/
theorem C6_variable_expansion_resolution :
    (∀ (mgr : ArrayManager) (array_id s : Str), backquote ∉ s →
      mgr.expand_values array_id s = .ok s) ∧
    (∀ (mgr : ArrayManager) (array_id pre t : Str), backquote ∉ pre → backquote ∉ t →
      mgr.expand_values array_id (pre ++ backquote :: t)
        = .error (.valueExpressionNotTerminated array_id (pre ++ backquote :: t))) ∧
    (∀ (mgr : ArrayManager) (array_id pre ne rest : Str),
      (lookupA mgr.arrays array_id).isSome = true →
      backquote ∉ pre → backquote ∉ ne → backquote ∉ rest →
      ((('=' : Char) ∉ ne →
        (∀ v, array_value_lookup mgr array_id ne = some v →
          mgr.expand_values array_id (pre ++ backquote :: (ne ++ backquote :: rest))
            = .ok (pre ++ v ++ rest)) ∧
        (array_value_lookup mgr array_id ne = none →
          ∀ v, lookupA mgr.global_values ne = some v →
          mgr.expand_values array_id (pre ++ backquote :: (ne ++ backquote :: rest))
            = .ok (pre ++ v ++ rest)) ∧
        (array_value_lookup mgr array_id ne = none →
          lookupA mgr.global_values ne = none →
          mgr.expand_values array_id (pre ++ backquote :: (ne ++ backquote :: rest))
            = .error (.arrayValueNotFound array_id
                (pre ++ backquote :: (ne ++ backquote :: rest)) ne))) ∧
      (∀ nm dflt, ne = nm ++ '=' :: dflt → ('=' : Char) ∉ nm →
        (∀ v, array_value_lookup mgr array_id nm = some v →
          mgr.expand_values array_id (pre ++ backquote :: (ne ++ backquote :: rest))
            = .ok (pre ++ v ++ rest)) ∧
        (array_value_lookup mgr array_id nm = none →
          ∀ v, lookupA mgr.global_values nm = some v →
          mgr.expand_values array_id (pre ++ backquote :: (ne ++ backquote :: rest))
            = .ok (pre ++ v ++ rest)) ∧
        (array_value_lookup mgr array_id nm = none →
          lookupA mgr.global_values nm = none →
          mgr.expand_values array_id (pre ++ backquote :: (ne ++ backquote :: rest))
            = .ok (pre ++ dflt ++ rest))))) := by
  refine ⟨?_, ?_, ?_⟩
  · intro mgr array_id s h
    unfold ArrayManager.expand_values
    rw [expand_go_copy mgr array_id s s h []]
    rfl
  · intro mgr array_id pre t hpre ht
    unfold ArrayManager.expand_values
    rw [expand_go.eq_def]
    simp only []
    rw [breakAtChar_append backquote pre t hpre]
    simp only []
    rw [breakAtChar_none backquote t ht]
  · intro mgr array_id pre ne rest harr hpre hne hrest
    constructor
    · intro hnoeq
      have hstep := expand_values_step mgr array_id pre ne rest harr hpre hne hrest
      rw [breakAtChar_none '=' ne hnoeq] at hstep
      simp only [] at hstep
      refine ⟨?_, ?_, ?_⟩
      · intro v hv
        rw [hstep, hv]
      · intro hv v hg
        rw [hstep, hv, hg]
      · intro hv hg
        rw [hstep, hv, hg]
    · intro nm dflt hne_eq hnm
      subst hne_eq
      have hstep := expand_values_step mgr array_id pre (nm ++ '=' :: dflt) rest harr hpre hne
        hrest
      rw [breakAtChar_append '=' nm dflt hnm] at hstep
      simp only [] at hstep
      refine ⟨?_, ?_, ?_⟩
      · intro v hv
        rw [hstep, hv]
      · intro hv v hg
        rw [hstep, hv, hg]
      · intro hv hg
        rw [hstep, hv, hg]

/-- Witness for C6 at concrete tables: `x` bound to "A" in the array table and
to "G" in the global table resolves to the array value. -/
theorem C6_variable_expansion_resolution_witness :
    (ArrayManager.expand_values
      { ArrayManager.new with
          arrays := [("a".toList,
            { description := [], universe_id := "0".toList, lights := [] })],
          values := [("a".toList, [("x".toList, "A".toList)])],
          global_values := [("x".toList, "G".toList)] }
      "a".toList ("hello ".toList ++ backquote :: ("x".toList ++ backquote :: " world".toList)))
      = .ok ("hello ".toList ++ "A".toList ++ " world".toList) :=
  ((C6_variable_expansion_resolution.2.2
    { ArrayManager.new with
        arrays := [("a".toList,
          { description := [], universe_id := "0".toList, lights := [] })],
        values := [("a".toList, [("x".toList, "A".toList)])],
        global_values := [("x".toList, "G".toList)] }
    "a".toList "hello ".toList "x".toList " world".toList
    (by decide) (by decide) (by decide) (by decide)).1 (by decide)).1 "A".toList (by decide)

/-! ### The Bresenham error term of the fade interpolation (C1) -/

/-- The number of distributed extra units after `k` ticks of a Bresenham fade
with remainder `r` over `N` ticks. -/
def ek (r N k : Nat) : Nat := (2 * r * k + N) / (2 * N)

theorem ek_zero (r N : Nat) (hN : 0 < N) : ek r N 0 = 0 := by
  unfold ek
  apply Nat.div_eq_of_lt
  omega

theorem ek_last (r N : Nat) (hN : 0 < N) (hr : r < N) : ek r N N = r := by
  unfold ek
  apply Nat.div_eq_of_lt_le
  · have h1 : r * (2 * N) = 2 * (r * N) := by ring
    have h2 : 2 * r * N = 2 * (r * N) := by ring
    omega
  · have h1 : (r + 1) * (2 * N) = 2 * (r * N) + 2 * N := by ring
    have h2 : 2 * r * N = 2 * (r * N) := by ring
    omega

theorem ek_mono (r N k k' : Nat) (h : k ≤ k') : ek r N k ≤ ek r N k' := by
  unfold ek
  apply Nat.div_le_div_right
  have h1 : 2 * r * k = 2 * (r * k) := by ring
  have h2 : 2 * r * k' = 2 * (r * k') := by ring
  have h3 : r * k ≤ r * k' := Nat.mul_le_mul_left r h
  omega

theorem ek_le (r N k : Nat) (hN : 0 < N) (hr : r < N) (hk : k ≤ N) : ek r N k ≤ r := by
  have := ek_mono r N k N hk
  rw [ek_last r N hN hr] at this
  exact this

theorem ek_succ_of_ge (r N k : Nat) (hN : 0 < N) (hr : r < N)
    (hc : N + 2 * N * ek r N k ≤ 2 * r * (k + 1)) :
    ek r N (k + 1) = ek r N k + 1 := by
  have hmod := Nat.div_add_mod (2 * r * k + N) (2 * N)
  have hlt := Nat.mod_lt (2 * r * k + N) (y := 2 * N) (by omega)
  unfold ek at *
  apply Nat.div_eq_of_lt_le
  · have h1 : ((2 * r * k + N) / (2 * N) + 1) * (2 * N)
        = 2 * N * ((2 * r * k + N) / (2 * N)) + 2 * N := by ring
    have h2 : 2 * r * (k + 1) = 2 * r * k + 2 * r := by ring
    omega
  · have h1 : ((2 * r * k + N) / (2 * N) + 1 + 1) * (2 * N)
        = 2 * N * ((2 * r * k + N) / (2 * N)) + 4 * N := by ring
    have h2 : 2 * r * (k + 1) = 2 * r * k + 2 * r := by ring
    omega

theorem ek_succ_of_lt (r N k : Nat) (hN : 0 < N) (hr : r < N)
    (hc : 2 * r * (k + 1) < N + 2 * N * ek r N k) :
    ek r N (k + 1) = ek r N k := by
  have hmod := Nat.div_add_mod (2 * r * k + N) (2 * N)
  have hlt := Nat.mod_lt (2 * r * k + N) (y := 2 * N) (by omega)
  unfold ek at *
  apply Nat.div_eq_of_lt_le
  · have h1 : (2 * r * k + N) / (2 * N) * (2 * N)
        = 2 * N * ((2 * r * k + N) / (2 * N)) := by ring
    have h2 : 2 * r * (k + 1) = 2 * r * k + 2 * r := by ring
    omega
  · have h1 : ((2 * r * k + N) / (2 * N) + 1) * (2 * N)
        = 2 * N * ((2 * r * k + N) / (2 * N)) + 2 * N := by ring
    have h2 : 2 * r * (k + 1) = 2 * r * k + 2 * r := by ring
    omega

theorem new_inc_eq (s e N : Nat) (hN : 0 < N) (hse : s < e) :
    DmxChannelDelta.new s e N = .ok
      { value := s, is_increment := true, delta := (e - s) / N, dx := N * 2,
        dy := (e - s) % N * 2,
        fraction := (((e - s) % N * 2 : Nat) : Int) - (N : Int) } := by
  unfold DmxChannelDelta.new
  rw [if_neg (by omega)]
  rw [show (decide (e > s)) = true from by simp [hse]]
  simp only [if_true, Except.ok.injEq, DmxChannelDelta.mk.injEq, true_and]
  have hmod := Nat.div_add_mod (e - s) N
  have h1 : (e - s) / N * N = N * ((e - s) / N) := by ring
  refine ⟨by omega, ?_⟩
  have hle : (e - s) / N * N ≤ e - s := Nat.div_mul_le_self _ _
  have hmodz : (N : Int) * ((e - s) / N : Nat) + ((e - s) % N : Nat) = ((e - s : Nat) : Int) := by
    exact_mod_cast hmod
  push_cast [Nat.cast_sub hle]
  have h4 : ((((e - s) / N : Nat) : Int) * N) = ((N : Int) * (((e - s) / N : Nat))) := by ring
  have h6 : ((e - s : Nat) : Int) / (N : Int) = (((e - s) / N : Nat) : Int) :=
    (Int.ofNat_div _ _).symm
  have h7 : ((e - s : Nat) : Int) / (N : Int) * (N : Int)
      = (((e - s) / N : Nat) : Int) * (N : Int) := by rw [h6]
  omega

theorem new_dec_eq (s e N : Nat) (hN : 0 < N) (hse : e ≤ s) :
    DmxChannelDelta.new s e N = .ok
      { value := s, is_increment := false, delta := (s - e) / N, dx := N * 2,
        dy := (s - e) % N * 2,
        fraction := (((s - e) % N * 2 : Nat) : Int) - (N : Int) } := by
  unfold DmxChannelDelta.new
  rw [if_neg (by omega)]
  rw [show (decide (e > s)) = false from by simp; omega]
  simp only [Bool.false_eq_true, if_false, Except.ok.injEq, DmxChannelDelta.mk.injEq, true_and]
  have hmod := Nat.div_add_mod (s - e) N
  have h1 : (s - e) / N * N = N * ((s - e) / N) := by ring
  refine ⟨by omega, ?_⟩
  have hle : (s - e) / N * N ≤ s - e := Nat.div_mul_le_self _ _
  have hmodz : (N : Int) * ((s - e) / N : Nat) + ((s - e) % N : Nat) = ((s - e : Nat) : Int) := by
    exact_mod_cast hmod
  push_cast [Nat.cast_sub hle]
  have h4 : ((((s - e) / N : Nat) : Int) * N) = ((N : Int) * (((s - e) / N : Nat))) := by ring
  have h6 : ((s - e : Nat) : Int) / (N : Int) = (((s - e) / N : Nat) : Int) :=
    (Int.ofNat_div _ _).symm
  have h7 : ((s - e : Nat) : Int) / (N : Int) * (N : Int)
      = (((s - e) / N : Nat) : Int) * (N : Int) := by rw [h6]
  omega

/-- The state of an incrementing fade component after `k` of its `N` ticks:
the value has advanced by `k` base steps plus the distributed extras, and the
error term satisfies the Bresenham relation. -/
theorem inc_invariant (s e N : Nat) (hN : 0 < N) (hse : s < e) :
    ∀ k, k ≤ N →
      DmxChannelDelta.tick^[k]
        { value := s, is_increment := true, delta := (e - s) / N, dx := N * 2,
          dy := (e - s) % N * 2,
          fraction := (((e - s) % N * 2 : Nat) : Int) - (N : Int) }
      = { value := s + k * ((e - s) / N) + ek ((e - s) % N) N k,
          is_increment := true, delta := (e - s) / N, dx := N * 2,
          dy := (e - s) % N * 2,
          fraction := (((e - s) % N : Nat) : Int) * 2 * ((k : Int) + 1) - (N : Int)
            - 2 * (N : Int) * (ek ((e - s) % N) N k : Nat) } := by
  intro k
  induction k with
  | zero =>
    intro _
    rw [Function.iterate_zero_apply]
    simp only [DmxChannelDelta.mk.injEq]
    rw [ek_zero _ _ hN]
    refine ⟨by omega, trivial, trivial, trivial, trivial, by push_cast; ring⟩
  | succ k ih =>
    intro hk1
    have hk : k ≤ N := by omega
    rw [Function.iterate_succ_apply', ih hk]
    set r := (e - s) % N with hr_def
    set q := (e - s) / N with hq_def
    have hrN : r < N := Nat.mod_lt _ (by omega)
    by_cases hc : N + 2 * N * ek r N k ≤ 2 * r * (k + 1)
    · have hge : ((r : Nat) : Int) * 2 * ((k : Int) + 1) - (N : Int)
          - 2 * (N : Int) * (ek r N k : Nat) ≥ 0 := by
        have hcz : ((N : Int) + 2 * N * (ek r N k : Nat)) ≤ 2 * r * ((k : Int) + 1) := by
          exact_mod_cast hc
        linarith
      unfold DmxChannelDelta.tick
      simp only [if_true, reduceIte, hge, ge_iff_le, DmxChannelDelta.mk.injEq]
      rw [ek_succ_of_ge r N k hN hrN hc]
      refine ⟨by ring, trivial, trivial, trivial, trivial, by push_cast; ring⟩
    · have hlt : ¬ (((r : Nat) : Int) * 2 * ((k : Int) + 1) - (N : Int)
          - 2 * (N : Int) * (ek r N k : Nat) ≥ 0) := by
        have hcz : 2 * (r : Int) * ((k : Int) + 1) < (N : Int) + 2 * N * (ek r N k : Nat) := by
          exact_mod_cast Nat.lt_of_not_le hc
        push_cast
        linarith
      unfold DmxChannelDelta.tick
      simp only [if_true, reduceIte, hlt, ge_iff_le, DmxChannelDelta.mk.injEq]
      rw [ek_succ_of_lt r N k hN hrN (by omega)]
      refine ⟨by ring, trivial, trivial, trivial, trivial, by push_cast; ring⟩

/-- The state of a decrementing fade component after `k` of its `N` ticks. -/
theorem dec_invariant (s e N : Nat) (hN : 0 < N) (hse : e ≤ s) :
    ∀ k, k ≤ N →
      DmxChannelDelta.tick^[k]
        { value := s, is_increment := false, delta := (s - e) / N, dx := N * 2,
          dy := (s - e) % N * 2,
          fraction := (((s - e) % N * 2 : Nat) : Int) - (N : Int) }
      = { value := s - (k * ((s - e) / N) + ek ((s - e) % N) N k),
          is_increment := false, delta := (s - e) / N, dx := N * 2,
          dy := (s - e) % N * 2,
          fraction := (((s - e) % N : Nat) : Int) * 2 * ((k : Int) + 1) - (N : Int)
            - 2 * (N : Int) * (ek ((s - e) % N) N k : Nat) } := by
  intro k
  induction k with
  | zero =>
    intro _
    rw [Function.iterate_zero_apply]
    simp only [DmxChannelDelta.mk.injEq]
    rw [ek_zero _ _ hN]
    refine ⟨by omega, trivial, trivial, trivial, trivial, by push_cast; ring⟩
  | succ k ih =>
    intro hk1
    have hk : k ≤ N := by omega
    rw [Function.iterate_succ_apply', ih hk]
    set r := (s - e) % N with hr_def
    set q := (s - e) / N with hq_def
    have hrN : r < N := Nat.mod_lt _ (by omega)
    by_cases hc : N + 2 * N * ek r N k ≤ 2 * r * (k + 1)
    · have hge : ((r : Nat) : Int) * 2 * ((k : Int) + 1) - (N : Int)
          - 2 * (N : Int) * (ek r N k : Nat) ≥ 0 := by
        have hcz : ((N : Int) + 2 * N * (ek r N k : Nat)) ≤ 2 * r * ((k : Int) + 1) := by
          exact_mod_cast hc
        linarith
      unfold DmxChannelDelta.tick
      simp only [Bool.false_eq_true, if_false, reduceIte, hge, ge_iff_le,
        DmxChannelDelta.mk.injEq]
      rw [ek_succ_of_ge r N k hN hrN hc]
      have hq1 : (k + 1) * q = k * q + q := by ring
      refine ⟨by omega, trivial, trivial, trivial, trivial, by push_cast; ring⟩
    · have hlt : ¬ (((r : Nat) : Int) * 2 * ((k : Int) + 1) - (N : Int)
          - 2 * (N : Int) * (ek r N k : Nat) ≥ 0) := by
        have hcz : 2 * (r : Int) * ((k : Int) + 1) < (N : Int) + 2 * N * (ek r N k : Nat) := by
          exact_mod_cast Nat.lt_of_not_le hc
        push_cast
        linarith
      unfold DmxChannelDelta.tick
      simp only [Bool.false_eq_true, if_false, reduceIte, hlt, ge_iff_le,
        DmxChannelDelta.mk.injEq]
      rw [ek_succ_of_lt r N k hN hrN (by omega)]
      have hq1 : (k + 1) * q = k * q + q := by ring
      refine ⟨by omega, trivial, trivial, trivial, trivial, by push_cast; ring⟩

theorem lookupA_updateA_self {κ α : Type} [DecidableEq κ] (l : List (κ × α)) (key : κ)
    (v a : α) (h : lookupA l key = some a) : lookupA (updateA l key v) key = some v := by
  induction l with
  | nil => simp [lookupA] at h
  | cons p rest ih =>
    obtain ⟨k1, v1⟩ := p
    by_cases hk : k1 = key
    · simp [lookupA, updateA, hk]
    · simp only [lookupA, updateA, if_neg hk] at h ⊢
      exact ih h

theorem updateA_updateA {κ α : Type} [DecidableEq κ] (l : List (κ × α)) (key : κ)
    (v1 v2 : α) : updateA (updateA l key v1) key v2 = updateA l key v2 := by
  induction l with
  | nil => rfl
  | cons p rest ih =>
    obtain ⟨k1, w⟩ := p
    by_cases hk : k1 = key
    · simp [updateA, hk]
    · simp [updateA, hk, ih]

/-- Iterate a fade node's tick `k` times, threading the manager. -/
def fadeIter (node : FadeEffectNode) (m : ArtnetManager) :
    Nat → Except Fault (FadeEffectNode × ArtnetManager)
  | 0 => .ok (node, m)
  | k + 1 =>
    match fadeIter node m k with
    | .error e => .error e
    | .ok (n, mm) => n.tick mm

/-- Zero iterated ticks change nothing. -/
theorem fadeIter_zero (node : FadeEffectNode) (mgr : ArtnetManager) :
    fadeIter node mgr 0 = .ok (node, mgr) := rfl

/-- A fade from `s` to a different `e` needs a fade. -/
theorem new_needed (s e N : Nat) (hN : 0 < N) (hne : s ≠ e) (d : DmxChannelDelta)
    (hd : DmxChannelDelta.new s e N = .ok d) : d.is_fade_needed = true := by
  rcases Nat.lt_or_ge s e with hlt | hge
  · rw [new_inc_eq s e N hN hlt] at hd
    injection hd with hd
    subst hd
    simp only [DmxChannelDelta.is_fade_needed]
    have hmod := Nat.div_add_mod (e - s) N
    simp only [Bool.or_eq_true, decide_eq_true_eq]
    rcases Nat.eq_zero_or_pos ((e - s) / N) with hq | hq
    · right
      rw [hq, Nat.mul_zero, Nat.zero_add] at hmod
      omega
    · exact Or.inl hq
  · have hlt : e < s := by omega
    rw [new_dec_eq s e N hN (by omega)] at hd
    injection hd with hd
    subst hd
    simp only [DmxChannelDelta.is_fade_needed]
    have hmod := Nat.div_add_mod (s - e) N
    simp only [Bool.or_eq_true, decide_eq_true_eq]
    rcases Nat.eq_zero_or_pos ((s - e) / N) with hq | hq
    · right
      rw [hq, Nat.mul_zero, Nat.zero_add] at hmod
      omega
    · exact Or.inl hq

/-- Pure consequences of the Bresenham invariants: from a successfully built
delta, the iterated component values start at `s`, stay between `s` and `e`,
progress monotonically, and reach `e` exactly at tick `N`. -/
theorem delta_values (s e N : Nat) (hN : 1 ≤ N) (d : DmxChannelDelta)
    (hd : DmxChannelDelta.new s e N = .ok d) :
    (DmxChannelDelta.tick^[0] d).value = s ∧
    (DmxChannelDelta.tick^[N] d).value = e ∧
    (∀ k, k ≤ N → min s e ≤ (DmxChannelDelta.tick^[k] d).value ∧
      (DmxChannelDelta.tick^[k] d).value ≤ max s e) ∧
    (∀ k, k < N →
      (s ≤ e → (DmxChannelDelta.tick^[k] d).value ≤ (DmxChannelDelta.tick^[k + 1] d).value) ∧
      (e ≤ s → (DmxChannelDelta.tick^[k + 1] d).value ≤ (DmxChannelDelta.tick^[k] d).value)) := by
  rcases Nat.lt_or_ge s e with hse | hse
  · rw [new_inc_eq s e N (by omega) hse] at hd
    injection hd with hd
    subst hd
    have hmod := Nat.div_add_mod (e - s) N
    have hrlt : (e - s) % N < N := Nat.mod_lt _ (by omega)
    refine ⟨?_, ?_, ?_, ?_⟩
    · rw [inc_invariant s e N (by omega) hse 0 (by omega)]
      simp only []
      rw [ek_zero _ _ (by omega)]
      omega
    · rw [inc_invariant s e N (by omega) hse N (by omega)]
      simp only []
      rw [ek_last _ _ (by omega) hrlt]
      omega
    · intro k hk
      rw [inc_invariant s e N (by omega) hse k hk]
      simp only []
      have h1 : k * ((e - s) / N) ≤ N * ((e - s) / N) :=
        Nat.mul_le_mul_right _ hk
      have h2 := ek_le ((e - s) % N) N k (by omega) hrlt hk
      omega
    · intro k hk
      rw [inc_invariant s e N (by omega) hse k (by omega),
          inc_invariant s e N (by omega) hse (k + 1) (by omega)]
      simp only []
      have h3 := ek_mono ((e - s) % N) N k (k + 1) (by omega)
      have h4 : k * ((e - s) / N) ≤ (k + 1) * ((e - s) / N) :=
        Nat.mul_le_mul_right _ (by omega)
      omega
  · rw [new_dec_eq s e N (by omega) hse] at hd
    injection hd with hd
    subst hd
    have hmod := Nat.div_add_mod (s - e) N
    have hrlt : (s - e) % N < N := Nat.mod_lt _ (by omega)
    have hek0 : ∀ j, ek 0 N j = 0 := by
      intro j
      unfold ek
      have h0 : 2 * 0 * j = 0 := by ring
      rw [h0]
      apply Nat.div_eq_of_lt
      omega
    refine ⟨?_, ?_, ?_, ?_⟩
    · rw [dec_invariant s e N (by omega) hse 0 (by omega)]
      simp only []
      rw [ek_zero _ _ (by omega)]
      omega
    · rw [dec_invariant s e N (by omega) hse N (by omega)]
      simp only []
      rw [ek_last _ _ (by omega) hrlt]
      have h1 : N * ((s - e) / N) = (s - e) / N * N := by ring
      omega
    · intro k hk
      rw [dec_invariant s e N (by omega) hse k hk]
      simp only []
      have h1 : k * ((s - e) / N) ≤ N * ((s - e) / N) :=
        Nat.mul_le_mul_right _ hk
      have h2 := ek_le ((s - e) % N) N k (by omega) hrlt hk
      omega
    · intro k hk
      rw [dec_invariant s e N (by omega) hse k (by omega),
          dec_invariant s e N (by omega) hse (k + 1) (by omega)]
      simp only []
      constructor
      · intro hle
        have heq0 : s - e = 0 := by omega
        rw [heq0]
        simp only [Nat.zero_div, Nat.zero_mod]
        have h1 := hek0 k
        have h2 := hek0 (k + 1)
        omega
      · intro _
        have h3 := ek_mono ((s - e) % N) N k (k + 1) (by omega)
        have h4 : k * ((s - e) / N) ≤ (k + 1) * ((s - e) / N) :=
          Nat.mul_le_mul_right _ (by omega)
        omega

/-- `Universe::set_channel` on a single-component channel inside bounds. -/
theorem set_channel_single (uu : Universe) (ch v : Nat)
    (hbound : DMX_DATA_OFFSET + ch + 1 ≤ uu.packet_bytes.length) :
    uu.set_channel { channel := .single ch, value := .single v }
    = .ok { uu with packet_bytes := uu.packet_bytes.set (DMX_DATA_OFFSET + ch) v } := by
  unfold Universe.set_channel
  simp [ChannelDefinition.componentIndices, DimmerValue.componentValues, hbound]

/-- `Universe::get_channel` on a single-component channel inside bounds. -/
theorem get_channel_single (uu : Universe) (ch : Nat)
    (hbound : DMX_DATA_OFFSET + ch + 1 ≤ uu.packet_bytes.length) :
    uu.get_channel (.single ch)
    = .ok { channel := .single ch,
            value := .single (uu.packet_bytes.getD (DMX_DATA_OFFSET + ch) 0) } := by
  unfold Universe.get_channel
  simp [ChannelDefinition.componentIndices, hbound]

/-- `ArtnetManager::set_channel` on a known universe, single component. -/
theorem mgr_set_channel_single (mgr : ArtnetManager) (uid : Str) (uu : Universe) (ch v : Nat)
    (hu : lookupA mgr.universes uid = some uu)
    (hbound : DMX_DATA_OFFSET + ch + 1 ≤ uu.packet_bytes.length) :
    mgr.set_channel uid { channel := .single ch, value := .single v } = .ok
      { universes := updateA mgr.universes uid
          { uu with packet_bytes := uu.packet_bytes.set (DMX_DATA_OFFSET + ch) v },
        active_effects := mgr.active_effects,
        set_channel_log := mgr.set_channel_log
          ++ [(uid, { channel := .single ch, value := .single v })] } := by
  unfold ArtnetManager.set_channel
  rw [hu]
  simp only []
  rw [set_channel_single uu ch v hbound]

/-- `ArtnetManager::get_channel` on a known universe, single component. -/
theorem mgr_get_channel_single (mgr : ArtnetManager) (uid : Str) (uu : Universe) (ch : Nat)
    (hu : lookupA mgr.universes uid = some uu)
    (hbound : DMX_DATA_OFFSET + ch + 1 ≤ uu.packet_bytes.length) :
    mgr.get_channel uid (.single ch) = .ok
      { channel := .single ch,
        value := .single (uu.packet_bytes.getD (DMX_DATA_OFFSET + ch) 0) } := by
  unfold ArtnetManager.get_channel
  rw [hu]
  simp only []
  rw [get_channel_single uu ch hbound]

/-- `run_phase` of a node that has reached its tick count is the identity. -/
theorem run_phase_done (node : FadeEffectNode) (mgr : ArtnetManager)
    (h : node.ticks ≤ node.current_tick) : node.run_phase mgr = .ok (node, mgr) := by
  unfold FadeEffectNode.run_phase
  rw [if_neg (by omega)]

/-- One `run_phase` step of a single-channel fade node with ticks still to go:
advance the delta, write the new value into the universe, bump `current_tick`,
and append one entry to the write trace. -/
theorem fade_run_phase_step (L : List UniverseChannelDefinitions) (T : TargetValue)
    (uid : Str) (ch N k : Nat) (mgr : ArtnetManager) (uu : Universe) (d : DmxChannelDelta)
    (hk : k < N) (hu : lookupA mgr.universes uid = some uu)
    (hbound : DMX_DATA_OFFSET + ch + 1 ≤ uu.packet_bytes.length) :
    FadeEffectNode.run_phase
      { lights := L, ticks := N, current_tick := k, target := T,
        state := some ⟨[⟨uid, [⟨.single ch, .single d⟩]⟩]⟩ } mgr
      = .ok ({ lights := L, ticks := N, current_tick := k + 1, target := T,
               state := some ⟨[⟨uid, [⟨.single ch, .single d.tick⟩]⟩]⟩ },
             { universes := updateA mgr.universes uid
                 { uu with packet_bytes :=
                     uu.packet_bytes.set (DMX_DATA_OFFSET + ch) d.tick.value },
               active_effects := mgr.active_effects,
               set_channel_log := mgr.set_channel_log ++
                 [(uid, { channel := .single ch, value := .single d.tick.value })] }) := by
  simp only [FadeEffectNode.run_phase]
  rw [if_pos hk]
  simp only [FadeEffectNode.tick_universe_states, FadeEffectNode.tick_channel_states,
    FadeEffectDimmerState.tick, FadeEffectChannelState.get_channel_value]
  rw [mgr_set_channel_single mgr uid uu ch (DmxChannelDelta.tick d).value hu hbound]

/-- The per-tick invariant of a single-channel fade node: after `k` ticks
(1 ≤ k ≤ N) the node carries the `k`-times-ticked delta, the universe byte
holds its value, `current_tick` equals `k`, and the write trace has grown by
exactly one `SetChannel` entry per tick, recording the successive values. -/
theorem fade_node_invariant (uid : Str) (ch s e N : Nat) (m : ArtnetManager)
    (uu : Universe) (d : DmxChannelDelta) (hN : 1 ≤ N) (hne : s ≠ e)
    (hu : lookupA m.universes uid = some uu)
    (hbound : DMX_DATA_OFFSET + ch + 1 ≤ uu.packet_bytes.length)
    (hs : uu.packet_bytes.getD (DMX_DATA_OFFSET + ch) 0 = s)
    (hd : DmxChannelDelta.new s e N = .ok d) :
    ∀ k, 1 ≤ k → k ≤ N →
      fadeIter { lights := [⟨uid, [.single ch]⟩], ticks := N, current_tick := 0,
                 target := { single := some e, rgb := none, tri_white := none },
                 state := none } m k
      = .ok ({ lights := [⟨uid, [.single ch]⟩], ticks := N, current_tick := k,
               target := { single := some e, rgb := none, tri_white := none },
               state := some ⟨[⟨uid, [⟨.single ch, .single (DmxChannelDelta.tick^[k] d)⟩]⟩]⟩ },
             { universes := updateA m.universes uid
                 { uu with packet_bytes :=
                     uu.packet_bytes.set (DMX_DATA_OFFSET + ch) (DmxChannelDelta.tick^[k] d).value },
               active_effects := m.active_effects,
               set_channel_log := m.set_channel_log ++ (List.range k).map
                 (fun i => (uid, { channel := .single ch,
                                   value := .single (DmxChannelDelta.tick^[i + 1] d).value })) }) := by
  have hneed : d.is_fade_needed = true := new_needed s e N (by omega) hne d hd
  have hget := mgr_get_channel_single m uid uu ch hu hbound
  rw [hs] at hget
  intro k
  induction k with
  | zero => intro h1 _; exact absurd h1 (by decide)
  | succ n ih =>
    intro _ hkN
    rcases Nat.eq_zero_or_pos n with hn | hn
    · subst hn
      have hics : FadeEffectNode.initialize_channel_state
          { lights := [⟨uid, [.single ch]⟩], ticks := N, current_tick := 0,
            target := { single := some e, rgb := none, tri_white := none }, state := none }
          m uid (.single ch) = .ok (some ⟨.single ch, .single d⟩) := by
        unfold FadeEffectNode.initialize_channel_state
        rw [hget]
        simp only []
        simp only [bind, Except.bind]
        rw [hd]
      have hius : FadeEffectNode.initialize_universe_state
          { lights := [⟨uid, [.single ch]⟩], ticks := N, current_tick := 0,
            target := { single := some e, rgb := none, tri_white := none }, state := none }
          m ⟨uid, [.single ch]⟩ = .ok [⟨.single ch, .single d⟩] := by
        unfold FadeEffectNode.initialize_universe_state
        simp only [List.foldlM_cons, List.foldlM_nil, bind, Except.bind, pure, Except.pure]
        rw [hics]
        rfl
      have hist : FadeEffectNode.initialize_state
          { lights := [⟨uid, [.single ch]⟩], ticks := N, current_tick := 0,
            target := { single := some e, rgb := none, tri_white := none }, state := none }
          m = .ok ⟨[⟨uid, [⟨.single ch, .single d⟩]⟩]⟩ := by
        unfold FadeEffectNode.initialize_state
        simp only [List.foldlM_cons, List.foldlM_nil, bind, Except.bind, pure, Except.pure]
        rw [hius]
        rfl
      have hfn : FadeEffectState.fade_needed ⟨[⟨uid, [⟨.single ch, .single d⟩]⟩]⟩ = true := by
        simp [FadeEffectState.fade_needed, FadeEffectUniverseState.fade_needed,
              FadeEffectChannelState.is_fade_needed, FadeEffectDimmerState.is_fade_needed,
              hneed]
      simp only [fadeIter]
      unfold FadeEffectNode.tick
      simp only []
      rw [hist]
      simp only []
      rw [if_pos hfn]
      rw [fade_run_phase_step [⟨uid, [.single ch]⟩]
        { single := some e, rgb := none, tri_white := none } uid ch N 0 m uu d
        (by omega) hu hbound]
      simp [List.range_succ, Function.iterate_one]
    · have hres := ih (by omega) (by omega)
      have hu' : lookupA (updateA m.universes uid
          { uu with packet_bytes := uu.packet_bytes.set (DMX_DATA_OFFSET + ch) (DmxChannelDelta.tick^[n] d).value }) uid
          = some { uu with packet_bytes := uu.packet_bytes.set (DMX_DATA_OFFSET + ch) (DmxChannelDelta.tick^[n] d).value } :=
        lookupA_updateA_self m.universes uid _ uu hu
      have hbound' : DMX_DATA_OFFSET + ch + 1 ≤
          (uu.packet_bytes.set (DMX_DATA_OFFSET + ch) (DmxChannelDelta.tick^[n] d).value).length := by
        rw [List.length_set]
        exact hbound
      simp only [fadeIter]
      rw [hres]
      simp only []
      unfold FadeEffectNode.tick
      simp only []
      rw [fade_run_phase_step _ _ uid ch N n _ _ _ (by omega) hu' hbound']
      simp [Function.iterate_succ_apply', List.set_set, updateA_updateA,
            List.range_succ, List.append_assoc]

/-- After `N` ticks the single-channel fade is done: every further tick leaves
the node and the manager unchanged. -/
theorem fade_node_stable (uid : Str) (ch s e N : Nat) (m : ArtnetManager)
    (uu : Universe) (d : DmxChannelDelta) (hN : 1 ≤ N) (hne : s ≠ e)
    (hu : lookupA m.universes uid = some uu)
    (hbound : DMX_DATA_OFFSET + ch + 1 ≤ uu.packet_bytes.length)
    (hs : uu.packet_bytes.getD (DMX_DATA_OFFSET + ch) 0 = s)
    (hd : DmxChannelDelta.new s e N = .ok d) :
    ∀ k, N ≤ k →
      fadeIter { lights := [⟨uid, [.single ch]⟩], ticks := N, current_tick := 0,
                 target := { single := some e, rgb := none, tri_white := none },
                 state := none } m k
      = fadeIter { lights := [⟨uid, [.single ch]⟩], ticks := N, current_tick := 0,
                   target := { single := some e, rgb := none, tri_white := none },
                   state := none } m N := by
  have hinv := fade_node_invariant uid ch s e N m uu d hN hne hu hbound hs hd N
    (by omega) (le_refl N)
  intro k
  induction k with
  | zero => intro h; omega
  | succ n ih =>
    intro h
    rcases Nat.lt_or_ge n N with h2 | h2
    · have hNeq : N = n + 1 := by omega
      rw [hNeq]
    · have hres := ih h2
      simp only [fadeIter]
      rw [hres, hinv]
      simp only []
      unfold FadeEffectNode.tick
      simp only []
      rw [run_phase_done _ _ (le_refl N)]

/-- C1 (amended: the start byte must differ from the target byte — when every
component already equals its target the no-fade shortcut fires, see C8, and
the node completes with zero `SetChannel` writes): for every start byte `s`,
target byte `e ≠ s` and tick count `N ≥ 1`, a single-channel Fade
interpolated by `DmxChannelDelta` performs exactly one `SetChannel` write per
tick while `current_tick < ticks` — the write trace has grown by exactly
`min k N` entries after `k` ticks, recording the successive delta values, and
the node is done exactly from tick `N` on, further ticks changing nothing —
the value after the `N`-th tick equals `e`, and the value sequence is
monotone (non-decreasing when `e ≥ s`, non-increasing when `e ≤ s`) and stays
between `s` and `e`. -/
theorem C1_fade_interpolation (uid : Str) (ch s e N : Nat) (m : ArtnetManager)
    (uu : Universe) (d : DmxChannelDelta) (hN : 1 ≤ N) (hne : s ≠ e)
    (hu : lookupA m.universes uid = some uu)
    (hbound : DMX_DATA_OFFSET + ch + 1 ≤ uu.packet_bytes.length)
    (hs : uu.packet_bytes.getD (DMX_DATA_OFFSET + ch) 0 = s)
    (hd : DmxChannelDelta.new s e N = .ok d) :
    (∀ k, 1 ≤ k → k ≤ N →
      fadeIter { lights := [⟨uid, [.single ch]⟩], ticks := N, current_tick := 0,
                 target := { single := some e, rgb := none, tri_white := none },
                 state := none } m k
      = .ok ({ lights := [⟨uid, [.single ch]⟩], ticks := N, current_tick := k,
               target := { single := some e, rgb := none, tri_white := none },
               state := some ⟨[⟨uid, [⟨.single ch, .single (DmxChannelDelta.tick^[k] d)⟩]⟩]⟩ },
             { universes := updateA m.universes uid
                 { uu with packet_bytes :=
                     uu.packet_bytes.set (DMX_DATA_OFFSET + ch) (DmxChannelDelta.tick^[k] d).value },
               active_effects := m.active_effects,
               set_channel_log := m.set_channel_log ++ (List.range k).map
                 (fun i => (uid, { channel := .single ch,
                                   value := .single (DmxChannelDelta.tick^[i + 1] d).value })) })) ∧
    (∀ k, N ≤ k →
      fadeIter { lights := [⟨uid, [.single ch]⟩], ticks := N, current_tick := 0,
                 target := { single := some e, rgb := none, tri_white := none },
                 state := none } m k
      = fadeIter { lights := [⟨uid, [.single ch]⟩], ticks := N, current_tick := 0,
                   target := { single := some e, rgb := none, tri_white := none },
                   state := none } m N) ∧
    (∀ k node' mgr',
      fadeIter { lights := [⟨uid, [.single ch]⟩], ticks := N, current_tick := 0,
                 target := { single := some e, rgb := none, tri_white := none },
                 state := none } m k
        = .ok (node', mgr') →
      mgr'.set_channel_log.length = m.set_channel_log.length + min k N ∧
      (node'.is_done = true ↔ N ≤ k)) ∧
    (DmxChannelDelta.tick^[0] d).value = s ∧
    (DmxChannelDelta.tick^[N] d).value = e ∧
    (∀ k, k ≤ N → min s e ≤ (DmxChannelDelta.tick^[k] d).value ∧
      (DmxChannelDelta.tick^[k] d).value ≤ max s e) ∧
    (∀ k, k < N →
      (s ≤ e → (DmxChannelDelta.tick^[k] d).value ≤ (DmxChannelDelta.tick^[k + 1] d).value) ∧
      (e ≤ s → (DmxChannelDelta.tick^[k + 1] d).value ≤ (DmxChannelDelta.tick^[k] d).value)) := by
  have hinv := fade_node_invariant uid ch s e N m uu d hN hne hu hbound hs hd
  have hstab := fade_node_stable uid ch s e N m uu d hN hne hu hbound hs hd
  have hpure := delta_values s e N hN d hd
  refine ⟨hinv, hstab, ?_, hpure.1, hpure.2.1, hpure.2.2.1, hpure.2.2.2⟩
  intro k node' mgr' hk
  rcases Nat.lt_or_ge k N with hkN | hkN
  · rcases Nat.eq_zero_or_pos k with hk0 | hk0
    · subst hk0
      rw [fadeIter_zero] at hk
      injection hk with hk
      injection hk with hk1 hk2
      subst hk1
      subst hk2
      refine ⟨by simp, ?_⟩
      simp only [FadeEffectNode.is_done, decide_eq_true_eq]
    · have hkeq := hinv k hk0 (by omega)
      rw [hkeq] at hk
      injection hk with hk
      injection hk with hk1 hk2
      subst hk1
      subst hk2
      constructor
      · simp only [List.length_append, List.length_map, List.length_range]
        omega
      · simp only [FadeEffectNode.is_done, decide_eq_true_eq]
  · rw [hstab k hkN] at hk
    rw [hinv N (by omega) (le_refl N)] at hk
    injection hk with hk
    injection hk with hk1 hk2
    subst hk1
    subst hk2
    constructor
    · simp only [List.length_append, List.length_map, List.length_range]
      omega
    · simp only [FadeEffectNode.is_done, decide_eq_true_eq]
      omega

/-- Witness for the amended C1: a two-tick fade of channel 0 of universe "u"
from byte 0 to byte 5 writes 3 then 5 (two `SetChannel` entries), ends with
the channel byte at 5 = `e`, and the component value after tick 2 is 5. -/
theorem C1_fade_interpolation_witness :
    DmxChannelDelta.new 0 5 2 = .ok ⟨0, true, 2, 4, 2, 0⟩ ∧
    fadeIter { lights := [⟨"u".toList, [.single 0]⟩], ticks := 2, current_tick := 0,
               target := { single := some 5, rgb := none, tri_white := none }, state := none }
      { universes := [("u".toList, { description := [], packet_bytes := List.replicate 20 0 })],
        active_effects := [], set_channel_log := [] } 2
      = .ok ({ lights := [⟨"u".toList, [.single 0]⟩], ticks := 2, current_tick := 2,
               target := { single := some 5, rgb := none, tri_white := none },
               state := some ⟨[⟨"u".toList, [⟨.single 0, .single ⟨5, true, 2, 4, 2, 0⟩⟩]⟩]⟩ },
             { universes := [("u".toList,
                 { description := [], packet_bytes := (List.replicate 20 0).set 18 5 })],
               active_effects := [],
               set_channel_log := [("u".toList, ⟨.single 0, .single 3⟩),
                                   ("u".toList, ⟨.single 0, .single 5⟩)] }) ∧
    (DmxChannelDelta.tick^[2] (⟨0, true, 2, 4, 2, 0⟩ : DmxChannelDelta)).value = 5 := by
  have h := C1_fade_interpolation "u".toList 0 0 5 2
    { universes := [("u".toList, { description := [], packet_bytes := List.replicate 20 0 })],
      active_effects := [], set_channel_log := [] }
    { description := [], packet_bytes := List.replicate 20 0 }
    ⟨0, true, 2, 4, 2, 0⟩ (by decide) (by decide) (by decide) (by decide) (by decide) rfl
  refine ⟨rfl, ?_, ?_⟩
  · rw [h.1 2 (by decide) (by decide)]
    rfl
  · exact h.2.2.2.2.1

/-- Counterexample to C1 as stated: a Fade whose start byte equals its target
byte (`s = e = 7`, `N = 2`, single channel 3 of universe "u").  The no-fade
shortcut fires on the first tick: the node jumps straight to done and the
manager — including the still-empty `SetChannel` write trace — is returned
unchanged, so this fade performs 0 updates rather than `N = 2`. -/
theorem C1_counterexample_equal_start_and_target :
    FadeEffectNode.tick
      { lights := [⟨"u".toList, [.single 3]⟩], ticks := 2, current_tick := 0,
        target := { single := some 7, rgb := none, tri_white := none }, state := none }
      { universes := [("u".toList,
          { description := [], packet_bytes := List.replicate 21 0 ++ [7] })],
        active_effects := [], set_channel_log := [] }
      = .ok ({ lights := [⟨"u".toList, [.single 3]⟩], ticks := 2, current_tick := 2,
               target := { single := some 7, rgb := none, tri_white := none }, state := none },
             { universes := [("u".toList,
                 { description := [], packet_bytes := List.replicate 21 0 ++ [7] })],
               active_effects := [], set_channel_log := [] }) ∧
    FadeEffectNode.is_done
      { lights := [⟨"u".toList, [.single 3]⟩], ticks := 2, current_tick := 2,
        target := { single := some 7, rgb := none, tri_white := none }, state := none }
      = true :=
  ⟨rfl, rfl⟩

/-! ## C4: containment of group channel roles in the `@all` usage map -/

theorem lookupA_append {κ α : Type} [DecidableEq κ] (l1 l2 : List (κ × α)) (key : κ) :
    lookupA (l1 ++ l2) key =
      match lookupA l1 key with
      | some v => some v
      | none => lookupA l2 key := by
  induction l1 with
  | nil => simp [lookupA]
  | cons p rest ih =>
    obtain ⟨k1, v1⟩ := p
    by_cases hk : k1 = key
    · simp [lookupA, hk]
    · simp [lookupA, hk, ih]

theorem lookupA_updateA_ne {κ α : Type} [DecidableEq κ] (l : List (κ × α)) (key key' : κ)
    (v : α) (h : key ≠ key') : lookupA (updateA l key v) key' = lookupA l key' := by
  induction l with
  | nil => rfl
  | cons p rest ih =>
    obtain ⟨k1, v1⟩ := p
    by_cases hk : k1 = key
    · subst hk
      simp [updateA, lookupA, h]
    · simp [updateA, lookupA, hk, ih]

/-- A freshly inserted role is found. -/
theorem usage_insert_self (cu : UsageMap) (uid : Str) (ch : Nat) (u : ChannelUsage)
    (h : usage_lookup cu uid ch = none) :
    usage_lookup (usage_insert cu uid ch u) uid ch = some u := by
  unfold usage_lookup at h ⊢
  unfold usage_insert
  cases hcu : lookupA cu uid with
  | none =>
    simp only []
    rw [lookupA_append, hcu]
    simp [lookupA]
  | some uu =>
    rw [hcu] at h
    simp only [] at h
    simp only []
    rw [lookupA_updateA_self cu uid _ uu hcu]
    simp only []
    rw [lookupA_append, h]
    simp [lookupA]

/-- Insertion preserves every existing binding. -/
theorem usage_insert_preserve (cu : UsageMap) (uid : Str) (ch : Nat) (u : ChannelUsage)
    (uid' : Str) (ch' : Nat) (u' : ChannelUsage)
    (h : usage_lookup cu uid' ch' = some u') :
    usage_lookup (usage_insert cu uid ch u) uid' ch' = some u' := by
  unfold usage_lookup at h ⊢
  unfold usage_insert
  cases hcu : lookupA cu uid with
  | none =>
    simp only []
    rw [lookupA_append]
    cases hcu' : lookupA cu uid' with
    | none => rw [hcu'] at h; simp at h
    | some uu' =>
      rw [hcu'] at h
      simp only [] at h
      simp only [hcu', h]
  | some uu =>
    simp only []
    by_cases huid : uid = uid'
    · subst huid
      rw [hcu] at h
      simp only [] at h
      rw [lookupA_updateA_self cu uid _ uu hcu]
      simp only []
      rw [lookupA_append, h]
    · rw [lookupA_updateA_ne cu uid uid' _ huid]
      exact h

/-- A binding found after insertion was either already present or is the
inserted one. -/
theorem usage_insert_new (cu : UsageMap) (uid : Str) (ch : Nat) (u : ChannelUsage)
    (uid' : Str) (ch' : Nat) (u' : ChannelUsage)
    (h : usage_lookup (usage_insert cu uid ch u) uid' ch' = some u') :
    usage_lookup cu uid' ch' = some u' ∨ (uid' = uid ∧ ch' = ch ∧ u' = u) := by
  unfold usage_lookup at h ⊢
  unfold usage_insert at h
  cases hcu : lookupA cu uid with
  | none =>
    rw [hcu] at h
    simp only [] at h
    rw [lookupA_append] at h
    cases hcu' : lookupA cu uid' with
    | some uu' =>
      rw [hcu'] at h
      simp only [] at h
      exact Or.inl h
    | none =>
      rw [hcu'] at h
      simp only [lookupA] at h
      by_cases huid : uid = uid'
      · rw [if_pos huid] at h
        simp only [lookupA] at h
        by_cases hch : ch = ch'
        · rw [if_pos hch] at h
          injection h with h
          exact Or.inr ⟨huid.symm, hch.symm, h.symm⟩
        · rw [if_neg hch] at h
          simp [lookupA] at h
      · rw [if_neg huid] at h
        simp at h
  | some uu =>
    rw [hcu] at h
    simp only [] at h
    by_cases huid : uid = uid'
    · subst huid
      rw [lookupA_updateA_self cu uid _ uu hcu] at h
      simp only [] at h
      rw [lookupA_append] at h
      cases hch' : lookupA uu ch' with
      | some w =>
        rw [hch'] at h
        simp only [] at h
        rw [hcu]
        simp only []
        exact Or.inl (hch'.trans (congrArg some (Option.some.inj h)))
      | none =>
        rw [hch'] at h
        simp only [lookupA] at h
        by_cases hch : ch = ch'
        · rw [if_pos hch] at h
          injection h with h
          exact Or.inr ⟨rfl, hch.symm, h.symm⟩
        · rw [if_neg hch] at h
          simp [lookupA] at h
    · rw [lookupA_updateA_ne cu uid uid' _ huid] at h
      exact Or.inl h

/-- The `must_exist` pass never changes the map and requires the exact role. -/
theorem acu_true_ok (aid g uid : Str) (cu : UsageMap) (ch : Nat) (u : ChannelUsage)
    (cu' : UsageMap) (h : add_channel_usage aid g uid true cu ch u = .ok cu') :
    cu' = cu ∧ usage_lookup cu uid ch = some u := by
  unfold add_channel_usage at h
  cases hl : usage_lookup cu uid ch with
  | none =>
    rw [hl] at h
    simp at h
  | some eu =>
    rw [hl] at h
    simp only [] at h
    by_cases he : eu = u
    · rw [if_pos he] at h
      injection h with h
      refine ⟨h.symm, ?_⟩
      rw [he]
    · rw [if_neg he] at h
      exact absurd h (by simp)

/-- The recording pass (`must_exist = false`): existing bindings survive, the
added role is present afterwards, and every binding afterwards was present
before or is the added one. -/
theorem acu_false_ok (aid g uid : Str) (cu : UsageMap) (ch : Nat) (u : ChannelUsage)
    (cu' : UsageMap) (h : add_channel_usage aid g uid false cu ch u = .ok cu') :
    (∀ uid' ch' u', usage_lookup cu uid' ch' = some u' →
      usage_lookup cu' uid' ch' = some u') ∧
    usage_lookup cu' uid ch = some u ∧
    (∀ uid' ch' u', usage_lookup cu' uid' ch' = some u' →
      usage_lookup cu uid' ch' = some u' ∨ (uid' = uid ∧ ch' = ch ∧ u' = u)) := by
  unfold add_channel_usage at h
  cases hl : usage_lookup cu uid ch with
  | some eu =>
    rw [hl] at h
    simp only [] at h
    by_cases he : eu = u
    · rw [if_pos he] at h
      injection h with h
      subst h
      subst he
      exact ⟨fun _ _ _ hh => hh, hl, fun _ _ _ hh => Or.inl hh⟩
    · rw [if_neg he] at h
      exact absurd h (by simp)
  | none =>
    rw [hl] at h
    simp only [Bool.false_eq_true, if_false] at h
    injection h with h
    subst h
    exact ⟨fun uid' ch' u' hh => usage_insert_preserve cu uid ch u uid' ch' u' hh,
           usage_insert_self cu uid ch u hl,
           fun uid' ch' u' hh => usage_insert_new cu uid ch u uid' ch' u' hh⟩

/-- The group pass over a pair list keeps the map and checks containment. -/
theorem aup_true (aid g uid : Str) (ps : List (Nat × ChannelUsage)) :
    ∀ cu cu', add_usage_pairs aid g uid true cu ps = .ok cu' →
      cu' = cu ∧ ∀ p ∈ ps, usage_lookup cu uid p.1 = some p.2 := by
  induction ps with
  | nil =>
    intro cu cu' h
    injection h with h
    exact ⟨h.symm, by simp⟩
  | cons p rest ih =>
    intro cu cu' h
    obtain ⟨ch, u⟩ := p
    simp only [add_usage_pairs] at h
    cases hacu : add_channel_usage aid g uid true cu ch u with
    | error e => rw [hacu] at h; simp at h
    | ok cu1 =>
      rw [hacu] at h
      simp only [] at h
      obtain ⟨heq, hlk⟩ := acu_true_ok aid g uid cu ch u cu1 hacu
      subst heq
      obtain ⟨h1, h2⟩ := ih cu1 cu' h
      refine ⟨h1, ?_⟩
      intro q hq
      rcases List.mem_cons.mp hq with hq | hq
      · subst hq
        exact hlk
      · exact h2 q hq

/-- The group pass over channel definitions keeps the map, checks roles. -/
theorem auc_true (aid g uid : Str) (cds : List ChannelDefinition) :
    ∀ cu cu', add_usage_channels aid g uid true cu cds = .ok cu' →
      cu' = cu ∧ ∀ cd ∈ cds, ∀ p ∈ channel_pairs cd,
        usage_lookup cu uid p.1 = some p.2 := by
  induction cds with
  | nil =>
    intro cu cu' h
    injection h with h
    exact ⟨h.symm, by simp⟩
  | cons cd rest ih =>
    intro cu cu' h
    simp only [add_usage_channels] at h
    cases haup : add_usage_pairs aid g uid true cu (channel_pairs cd) with
    | error e => rw [haup] at h; simp at h
    | ok cu1 =>
      rw [haup] at h
      simp only [] at h
      obtain ⟨heq, hlk⟩ := aup_true aid g uid (channel_pairs cd) cu cu1 haup
      subst heq
      obtain ⟨h1, h2⟩ := ih cu1 cu' h
      refine ⟨h1, ?_⟩
      intro cd2 hcd2 p hp
      rcases List.mem_cons.mp hcd2 with hcd2 | hcd2
      · subst hcd2
        exact hlk p hp
      · exact h2 cd2 hcd2 p hp

/-- The group pass over a whole expansion keeps the map, checks every role. -/
theorem alu_true (aid g : Str) (lights : List UniverseChannelDefinitions) :
    ∀ cu cu', add_light_usage aid g true cu lights = .ok cu' →
      cu' = cu ∧ ∀ ucd ∈ lights, ∀ cd ∈ ucd.channels, ∀ p ∈ channel_pairs cd,
        usage_lookup cu ucd.universe_id p.1 = some p.2 := by
  induction lights with
  | nil =>
    intro cu cu' h
    injection h with h
    exact ⟨h.symm, by simp⟩
  | cons ucd rest ih =>
    intro cu cu' h
    simp only [add_light_usage] at h
    cases hauc : add_usage_channels aid g ucd.universe_id true cu ucd.channels with
    | error e => rw [hauc] at h; simp at h
    | ok cu1 =>
      rw [hauc] at h
      simp only [] at h
      obtain ⟨heq, hlk⟩ := auc_true aid g ucd.universe_id ucd.channels cu cu1 hauc
      subst heq
      obtain ⟨h1, h2⟩ := ih cu1 cu' h
      refine ⟨h1, ?_⟩
      intro ucd2 hucd2 cd hcd p hp
      rcases List.mem_cons.mp hucd2 with hucd2 | hucd2
      · subst hucd2
        exact hlk cd hcd p hp
      · exact h2 ucd2 hucd2 cd hcd p hp

/-- A successful group verification: every declared group expands and every
role it uses is recorded identically in the usage map. -/
theorem vg_ok (aid : Str) (array : DmxArray) (gs : List (Str × Str)) :
    ∀ cu, verify_groups aid array cu gs = .ok () →
      ∀ g ll, (g, ll) ∈ gs →
        ∃ lights, static_get_array_light_channels aid array ll = .ok lights ∧
          ∀ ucd ∈ lights, ∀ cd ∈ ucd.channels, ∀ p ∈ channel_pairs cd,
            usage_lookup cu ucd.universe_id p.1 = some p.2 := by
  induction gs with
  | nil =>
    intro cu _ g ll hmem
    simp at hmem
  | cons gp rest ih =>
    intro cu h g ll hmem
    obtain ⟨g1, ll1⟩ := gp
    simp only [verify_groups] at h
    cases hexp : static_get_array_light_channels aid array ll1 with
    | error e => rw [hexp] at h; simp at h
    | ok lights1 =>
      rw [hexp] at h
      simp only [] at h
      cases halu : add_light_usage aid g1 true cu lights1 with
      | error e => rw [halu] at h; simp at h
      | ok cu1 =>
        rw [halu] at h
        simp only [] at h
        obtain ⟨heq, hlk⟩ := alu_true aid g1 lights1 cu cu1 halu
        subst heq
        rcases List.mem_cons.mp hmem with hmem1 | hmem1
        · injection hmem1 with hg hll
          subst hg
          subst hll
          exact ⟨lights1, hexp, hlk⟩
        · exact ih cu1 h g ll hmem1

/-- `(universe_id, channel, role)` appears in an expansion result: some
universe-channel-definitions entry for that universe id contains a channel
definition one of whose component assignments is the pair. -/
def light_triple (lights : List UniverseChannelDefinitions) (universe_id : Str)
    (p : Nat × ChannelUsage) : Prop :=
  ∃ ucd ∈ lights, ucd.universe_id = universe_id ∧ ∃ cd ∈ ucd.channels, p ∈ channel_pairs cd

/-- The recording pass over a pair list: bindings survive, every pair is
recorded afterwards, and nothing else appears. -/
theorem aup_false (aid g uid : Str) (ps : List (Nat × ChannelUsage)) :
    ∀ cu cu', add_usage_pairs aid g uid false cu ps = .ok cu' →
      (∀ uid' ch' u', usage_lookup cu uid' ch' = some u' →
        usage_lookup cu' uid' ch' = some u') ∧
      (∀ p ∈ ps, usage_lookup cu' uid p.1 = some p.2) ∧
      (∀ uid' ch' u', usage_lookup cu' uid' ch' = some u' →
        usage_lookup cu uid' ch' = some u' ∨
        (uid' = uid ∧ ∃ p ∈ ps, ch' = p.1 ∧ u' = p.2)) := by
  induction ps with
  | nil =>
    intro cu cu' h
    injection h with h
    subst h
    exact ⟨fun _ _ _ hh => hh, by simp, fun _ _ _ hh => Or.inl hh⟩
  | cons p rest ih =>
    intro cu cu' h
    obtain ⟨ch, u⟩ := p
    simp only [add_usage_pairs] at h
    cases hacu : add_channel_usage aid g uid false cu ch u with
    | error e => rw [hacu] at h; simp at h
    | ok cu1 =>
      rw [hacu] at h
      simp only [] at h
      obtain ⟨hpres1, hself1, hnew1⟩ := acu_false_ok aid g uid cu ch u cu1 hacu
      obtain ⟨hpres2, hall2, hnew2⟩ := ih cu1 cu' h
      refine ⟨fun uid' ch' u' hh => hpres2 uid' ch' u' (hpres1 uid' ch' u' hh), ?_, ?_⟩
      · intro q hq
        rcases List.mem_cons.mp hq with hq | hq
        · subst hq
          exact hpres2 uid ch u hself1
        · exact hall2 q hq
      · intro uid' ch' u' hh
        rcases hnew2 uid' ch' u' hh with hh1 | ⟨huid, q, hq, hch, hu⟩
        · rcases hnew1 uid' ch' u' hh1 with hh2 | ⟨huid, hch, hu⟩
          · exact Or.inl hh2
          · exact Or.inr ⟨huid, (ch, u), List.mem_cons_self _ _, hch, hu⟩
        · exact Or.inr ⟨huid, q, List.mem_cons_of_mem _ hq, hch, hu⟩

/-- The recording pass over channel definitions. -/
theorem auc_false (aid g uid : Str) (cds : List ChannelDefinition) :
    ∀ cu cu', add_usage_channels aid g uid false cu cds = .ok cu' →
      (∀ uid' ch' u', usage_lookup cu uid' ch' = some u' →
        usage_lookup cu' uid' ch' = some u') ∧
      (∀ cd ∈ cds, ∀ p ∈ channel_pairs cd, usage_lookup cu' uid p.1 = some p.2) ∧
      (∀ uid' ch' u', usage_lookup cu' uid' ch' = some u' →
        usage_lookup cu uid' ch' = some u' ∨
        (uid' = uid ∧ ∃ cd ∈ cds, (ch', u') ∈ channel_pairs cd)) := by
  induction cds with
  | nil =>
    intro cu cu' h
    injection h with h
    subst h
    exact ⟨fun _ _ _ hh => hh, by simp, fun _ _ _ hh => Or.inl hh⟩
  | cons cd rest ih =>
    intro cu cu' h
    simp only [add_usage_channels] at h
    cases haup : add_usage_pairs aid g uid false cu (channel_pairs cd) with
    | error e => rw [haup] at h; simp at h
    | ok cu1 =>
      rw [haup] at h
      simp only [] at h
      obtain ⟨hpres1, hall1, hnew1⟩ := aup_false aid g uid (channel_pairs cd) cu cu1 haup
      obtain ⟨hpres2, hall2, hnew2⟩ := ih cu1 cu' h
      refine ⟨fun uid' ch' u' hh => hpres2 uid' ch' u' (hpres1 uid' ch' u' hh), ?_, ?_⟩
      · intro cd2 hcd2 p hp
        rcases List.mem_cons.mp hcd2 with hcd2 | hcd2
        · subst hcd2
          exact hpres2 uid p.1 p.2 (hall1 p hp)
        · exact hall2 cd2 hcd2 p hp
      · intro uid' ch' u' hh
        rcases hnew2 uid' ch' u' hh with hh1 | ⟨huid, cd2, hcd2, hp⟩
        · rcases hnew1 uid' ch' u' hh1 with hh2 | ⟨huid, q, hq, hch, hu⟩
          · exact Or.inl hh2
          · refine Or.inr ⟨huid, cd, List.mem_cons_self _ _, ?_⟩
            rw [hch, hu]
            exact hq
        · exact Or.inr ⟨huid, cd2, List.mem_cons_of_mem _ hcd2, hp⟩

/-- The recording pass over a whole expansion (`@all`): bindings survive,
every triple of the expansion is recorded, and every binding afterwards was
present before or is a triple of the expansion. -/
theorem alu_false (aid g : Str) (lights : List UniverseChannelDefinitions) :
    ∀ cu cu', add_light_usage aid g false cu lights = .ok cu' →
      (∀ uid' ch' u', usage_lookup cu uid' ch' = some u' →
        usage_lookup cu' uid' ch' = some u') ∧
      (∀ ucd ∈ lights, ∀ cd ∈ ucd.channels, ∀ p ∈ channel_pairs cd,
        usage_lookup cu' ucd.universe_id p.1 = some p.2) ∧
      (∀ uid' ch' u', usage_lookup cu' uid' ch' = some u' →
        usage_lookup cu uid' ch' = some u' ∨ light_triple lights uid' (ch', u')) := by
  induction lights with
  | nil =>
    intro cu cu' h
    injection h with h
    subst h
    exact ⟨fun _ _ _ hh => hh, by simp, fun _ _ _ hh => Or.inl hh⟩
  | cons ucd rest ih =>
    intro cu cu' h
    simp only [add_light_usage] at h
    cases hauc : add_usage_channels aid g ucd.universe_id false cu ucd.channels with
    | error e => rw [hauc] at h; simp at h
    | ok cu1 =>
      rw [hauc] at h
      simp only [] at h
      obtain ⟨hpres1, hall1, hnew1⟩ := auc_false aid g ucd.universe_id ucd.channels cu cu1 hauc
      obtain ⟨hpres2, hall2, hnew2⟩ := ih cu1 cu' h
      refine ⟨fun uid' ch' u' hh => hpres2 uid' ch' u' (hpres1 uid' ch' u' hh), ?_, ?_⟩
      · intro ucd2 hucd2 cd hcd p hp
        rcases List.mem_cons.mp hucd2 with hucd2 | hucd2
        · subst hucd2
          exact hpres2 _ p.1 p.2 (hall1 cd hcd p hp)
        · exact hall2 ucd2 hucd2 cd hcd p hp
      · intro uid' ch' u' hh
        rcases hnew2 uid' ch' u' hh with hh1 | ⟨ucd2, hucd2, huid, cd2, hcd2, hp⟩
        · rcases hnew1 uid' ch' u' hh1 with hh2 | ⟨huid, cd2, hcd2, hp⟩
          · exact Or.inl hh2
          · exact Or.inr ⟨ucd, List.mem_cons_self _ _, huid.symm, cd2, hcd2, hp⟩
        · exact Or.inr ⟨ucd2, List.mem_cons_of_mem _ hucd2, huid, cd2, hcd2, hp⟩

/-- C4: for every array accepted by AddArray's light verification
(`verify_array_lights` returns Ok), the `@all` expansion succeeds, every
declared group expands successfully and every channel role it uses — S, R, G,
B, W1, W2 or W3, produced by the per-definition component assignment — also
appears in the `@all` expansion in the same universe with the identical role;
moreover the roles of the `@all` expansion are consistent: two usages of the
same universe channel always carry the same role.  (Conversely, a group using
a channel absent from `@all`, or two usages of one channel with two roles,
cannot satisfy the Ok hypothesis, so AddArray returns an error.) -/
theorem C4_group_roles_contained_in_all (array_id : Str) (array : DmxArray)
    (h : verify_array_lights array_id array = .ok ()) :
    ∃ all_lights,
      static_get_array_light_channels array_id array "@all".toList = .ok all_lights ∧
      (∀ g ll, (g, ll) ∈ array.lights →
        ∃ lights, static_get_array_light_channels array_id array ll = .ok lights ∧
          ∀ uid p, light_triple lights uid p → light_triple all_lights uid p) ∧
      (∀ uid ch u1 u2, light_triple all_lights uid (ch, u1) →
        light_triple all_lights uid (ch, u2) → u1 = u2) := by
  unfold verify_array_lights at h
  cases hexp : static_get_array_light_channels array_id array ("@all".toList) with
  | error e => rw [hexp] at h; simp at h
  | ok all_lights =>
    rw [hexp] at h
    simp only [] at h
    cases halu : add_light_usage array_id "@all".toList false [] all_lights with
    | error e => rw [halu] at h; simp at h
    | ok M =>
      rw [halu] at h
      simp only [] at h
      obtain ⟨hpres, hself, hnew⟩ := alu_false array_id "@all".toList all_lights [] M halu
      have htr_lookup : ∀ uid (p : Nat × ChannelUsage), light_triple all_lights uid p →
          usage_lookup M uid p.1 = some p.2 := by
        rintro uid p ⟨ucd, hucd, huid, cd, hcd, hp⟩
        have := hself ucd hucd cd hcd p hp
        rw [huid] at this
        exact this
      have hlookup_tr : ∀ uid ch u, usage_lookup M uid ch = some u →
          light_triple all_lights uid (ch, u) := by
        intro uid ch u hM
        rcases hnew uid ch u hM with hnone | htr
        · simp [usage_lookup, lookupA] at hnone
        · exact htr
      refine ⟨all_lights, rfl, ?_, ?_⟩
      · intro g ll hmem
        obtain ⟨lights, hexp2, hlk⟩ := vg_ok array_id array array.lights M h g ll hmem
        refine ⟨lights, hexp2, ?_⟩
        rintro uid p ⟨ucd, hucd, huid, cd, hcd, hp⟩
        have hM := hlk ucd hucd cd hcd p hp
        rw [huid] at hM
        exact hlookup_tr uid p.1 p.2 hM
      · intro uid ch u1 u2 h1 h2
        have e1 := htr_lookup uid (ch, u1) h1
        have e2 := htr_lookup uid (ch, u2) h2
        rw [e1] at e2
        exact Option.some.inj e2

/-- Witness for C4: the array with lights `all = "s:0,rgb:1"`, `g = "s:0"`
passes light verification, and the containment and role-consistency
conclusions hold for it. -/
theorem C4_group_roles_contained_in_all_witness :
    verify_array_lights "a".toList
      { description := "d".toList, universe_id := "0".toList,
        lights := [("all".toList, "s:0,rgb:1".toList), ("g".toList, "s:0".toList)] }
      = .ok () ∧
    (∃ all_lights,
      static_get_array_light_channels "a".toList
        { description := "d".toList, universe_id := "0".toList,
          lights := [("all".toList, "s:0,rgb:1".toList), ("g".toList, "s:0".toList)] }
        "@all".toList = .ok all_lights ∧
      (∀ g ll, (g, ll) ∈ [("all".toList, "s:0,rgb:1".toList), ("g".toList, "s:0".toList)] →
        ∃ lights, static_get_array_light_channels "a".toList
            { description := "d".toList, universe_id := "0".toList,
              lights := [("all".toList, "s:0,rgb:1".toList), ("g".toList, "s:0".toList)] }
            ll = .ok lights ∧
          ∀ uid p, light_triple lights uid p → light_triple all_lights uid p) ∧
      (∀ uid ch u1 u2, light_triple all_lights uid (ch, u1) →
        light_triple all_lights uid (ch, u2) → u1 = u2)) := by
  have hv : verify_array_lights "a".toList
      { description := "d".toList, universe_id := "0".toList,
        lights := [("all".toList, "s:0,rgb:1".toList), ("g".toList, "s:0".toList)] }
      = .ok () := by
    simp [verify_array_lights, static_get_array_light_channels,
      static_do_get_array_light_channels, static_do_entries, split_entries, splitOnChar,
      splitOnCharAux, trim, stripPrefixChar, lookupA, ChannelDefinition.from_str,
      breakAtChar, parse_u16, parseNatDigits, addResultChannel, verify_groups,
      add_light_usage, add_usage_channels, add_usage_pairs, add_channel_usage,
      channel_pairs, usage_lookup, usage_insert, updateA]
    rfl
  exact ⟨hv, C4_group_roles_contained_in_all "a".toList
    { description := "d".toList, universe_id := "0".toList,
      lights := [("all".toList, "s:0,rgb:1".toList), ("g".toList, "s:0".toList)] } hv⟩

end MqttDmx
